import Mathlib

/-!
Verification of the yggdrasil-go authentication server against its
natural-language specification.

The Go sources are shallowly embedded: machine integers become `Int`/`Nat`
(Unix-millisecond timestamps are `Int`), Go maps and LRU caches become
functions into `Option`, database tables become association lists or
functions into `Option`, and fallible operations return `Except`.  Every
definition is translated from the repository's source files (file and
function named in each doc comment); the few places where a third-party
dependency (bcrypt, the `x/time/rate` limiter, SHA-256) or an outbound
network call is involved are abstracted by explicit oracle parameters or
modelled from the specification, as noted locally.
-/

namespace Ygg

/-- From `util/error_utils.go`: the canonical error envelope
(`YggdrasilError`, with out-of-band HTTP status). -/
structure YggError where
  status : Nat
  errorCode : String
  errorMessage : String
deriving DecidableEq, Repr

/-- `util.NewIllegalArgumentError` (status 400, code IllegalArgumentException). -/
def NewIllegalArgumentError (msg : String) : YggError :=
  ⟨400, "IllegalArgumentException", msg⟩

/-- `util.NewForbiddenOperationError` (status 403, code ForbiddenOperationException). -/
def NewForbiddenOperationError (msg : String) : YggError :=
  ⟨403, "ForbiddenOperationException", msg⟩

/-- `util.MessageInvalidToken`. -/
def MessageInvalidToken : String := "Invalid token."

/-- `util.MessageInvalidCredentials`. -/
def MessageInvalidCredentials : String :=
  "Invalid credentials. Invalid username or password."

/-- Milliseconds in one day (`time.Hour*24` at millisecond granularity). -/
def msPerDay : Int := 86400000

/-! ## Token model (`model/token.go`) and token service (`service/token_service.go`) -/

/-- Snapshot of a profile carried inside a `Token`
(`model.Profile`, restricted to the fields token bookkeeping uses). -/
structure ProfileSnap where
  id : Nat
  name : String
deriving DecidableEq, Repr

/-- `model.Token`: creation timestamp (Unix millis), client token,
access token, and the profile snapshot taken at issuance. -/
structure Token where
  createAt : Int
  clientToken : String
  accessToken : String
  selectedProfile : ProfileSnap
deriving DecidableEq, Repr

/-- `model.AvailableLevel`. -/
inductive AvailableLevel where
  | Valid
  | NeedRefresh
  | Invalid
deriving DecidableEq, Repr

/-- `model.Token.GetAvailableLevel`: age above 30 days is Invalid, above
15 days is NeedRefresh, otherwise Valid.  `now` is the observation time in
Unix milliseconds (`time.Now()`). -/
def Token.GetAvailableLevel (t : Token) (now : Int) : AvailableLevel :=
  let d := now - t.createAt
  if d > 30 * msPerDay then .Invalid
  else if d > 15 * msPerDay then .NeedRefresh
  else .Valid

/-- The token service's LRU cache (`tokenStore.tokenCache`), keyed by
access token.  Capacity-bounded eviction is not modelled (capacity is
10,000,000). -/
def TokenCache : Type := String → Option Token

/-- `tokenStore.RemoveAccessToken`. -/
def removeAccessToken (c : TokenCache) (accessToken : String) : TokenCache :=
  fun k => if k = accessToken then none else c k

/-- `tokenStore.GetToken`: raw lookup without the availability check. -/
def getToken (c : TokenCache) (accessToken : String) : Option Token :=
  c accessToken

/-- The client-token guard inside `tokenStore.VerifyToken`:
`clientToken != nil && token.ClientToken != *clientToken`. -/
def clientTokenMismatch (clientToken : Option String) (token : Token) : Bool :=
  match clientToken with
  | some ct => token.clientToken ≠ ct
  | none => false

/-- `tokenStore.VerifyToken`: Invalid when the access token is not cached;
Invalid (without eviction) when a client token was supplied and does not
match; otherwise the age-derived level, evicting the token when that level
is Invalid.  Returns the level and the cache after the call's side effect. -/
def verifyToken (c : TokenCache) (accessToken : String) (clientToken : Option String)
    (now : Int) : AvailableLevel × TokenCache :=
  match c accessToken with
  | some token =>
    if clientTokenMismatch clientToken token then (.Invalid, c)
    else
      let c' := if token.GetAvailableLevel now = .Invalid then
          removeAccessToken c token.accessToken
        else c
      (token.GetAvailableLevel now, c')
  | none => (.Invalid, c)

/-! ## Authentication sessions (`model/authentication_session.go`) and
session service (`service/session_service.go`) -/

/-- The 204 no-content sentinel (`util.YggdrasilError{Status: http.StatusNoContent}`). -/
def NoContentError : YggError := ⟨204, "", ""⟩

/-- `model.AuthenticationSession`: one in-flight join handshake, keyed by
the game server's self-declared server id. -/
structure AuthSession where
  serverId : String
  token : Token
  ip : String
  createAt : Int
deriving DecidableEq, Repr

/-- `AuthenticationSession.HasExpired`: older than 30 seconds. -/
def AuthSession.HasExpired (s : AuthSession) (now : Int) : Bool :=
  now - s.createAt > 30 * 1000

/-- The session service's LRU cache (`sessionStore.sessionCache`), keyed by
server id (capacity 100,000; capacity eviction not modelled). -/
def SessionCache : Type := String → Option AuthSession

/-- `sessionCache.Remove`. -/
def removeSession (c : SessionCache) (serverId : String) : SessionCache :=
  fun k => if k = serverId then none else c k

/-- The signed complete profile document built by
`Profile.ToCompleteResponse(signed, textureBaseUrl)`; the JSON rendering
itself is kept abstract, only its inputs are carried. -/
structure CompleteProfileResp where
  profile : ProfileSnap
  signed : Bool
  textureBaseUrl : String
deriving DecidableEq, Repr

/-- `Profile.ToCompleteResponse` (rendering abstracted, see
`CompleteProfileResp`). -/
def toCompleteResponse (p : ProfileSnap) (signed : Bool) (textureBaseUrl : String) :
    CompleteProfileResp :=
  ⟨p, signed, textureBaseUrl⟩

/-- `sessionStore.HasJoinedServer`.  On a cache hit the session is usable
only if not expired (an expired one is removed by the short-circuit
`session.HasExpired() && s.sessionCache.Remove(serverId)`), the caller's
ip is empty or equal to the recorded one, and the profile name equals the
declared username; a usable session yields the signed complete profile,
any other hit yields the 204 sentinel WITHOUT consulting the upstream
service.  Only on a cache miss is the upstream federation layer consulted
(when configured).  `upstream` is `some r` when an upstream service is
configured and its `HasJoined` call would produce `r`; the returned `Bool`
records whether the federation layer was consulted. -/
def HasJoinedServer (cache : SessionCache)
    (upstream : Option (Except YggError (Option CompleteProfileResp)))
    (serverId username ip textureBaseUrl : String) (now : Int) :
    Except YggError CompleteProfileResp × SessionCache × Bool :=
  match cache serverId with
  | some session =>
    let expired := session.HasExpired now
    let cache' := if expired then removeSession cache serverId else cache
    if ¬ expired ∧ (ip = "" ∨ ip = session.ip) ∧
        session.token.selectedProfile.name = username then
      (.ok (toCompleteResponse session.token.selectedProfile true textureBaseUrl),
        cache', false)
    else
      (.error NoContentError, cache', false)
  | none =>
    match upstream with
    | some result =>
      match result with
      | .error e => (.error e, cache, true)
      | .ok (some joinedResp) => (.ok joinedResp, cache, true)
      | .ok none => (.error NoContentError, cache, true)
    | none => (.error NoContentError, cache, false)

/-! ## Accounts (`model/user.go`), registration tokens (`model`'s RegToken
and the registration-token service) and `userServiceImpl.ResetPassword`
(`service/user_service.go`) -/

/-- `model.User`, restricted to the durable fields the account flows use
(`SerializedTextures`/model type are handled in the texture section). -/
structure UserRec where
  id : Nat
  email : String
  password : String
  emailVerified : Bool
  profileName : String
deriving DecidableEq, Repr

/-- The `users` table. -/
abbrev UserDB : Type := List UserRec

/-- `db.Where("email = ?", email).First(&user)`. -/
def findByEmail (db : UserDB) (email : String) : Option UserRec :=
  db.find? (fun u => u.email = email)

/-- `model.RegToken`: a short-lived email-verification / password-reset
token. -/
structure RegToken where
  createAt : Int
  accessToken : String
  email : String
deriving DecidableEq, Repr

/-- `RegToken.IsValid`: younger than 10 minutes. -/
def RegToken.IsValid (t : RegToken) (now : Int) : Bool :=
  now - t.createAt < 10 * 60 * 1000

/-- The registration-token service's cache
(`regTokenServiceImpl.tokenCache`), keyed by the token's access-token
string. -/
def RegTokenCache : Type := String → Option RegToken

/-- `tokenCache.Remove` on the registration-token cache. -/
def removeRegToken (c : RegTokenCache) (accessToken : String) : RegTokenCache :=
  fun k => if k = accessToken then none else c k

/-- `regTokenServiceImpl.VerifyToken`: fails with the invalid-token error
when the access token is not cached; removes the token (single use) and
returns its bound email when it is cached and still valid; fails (without
removal) when it is cached but expired. -/
def regVerifyToken (c : RegTokenCache) (accessToken : String) (now : Int) :
    Except YggError String × RegTokenCache :=
  match c accessToken with
  | none => (.error (NewIllegalArgumentError MessageInvalidToken), c)
  | some regToken =>
    if regToken.IsValid now then
      (.ok regToken.email, removeRegToken c accessToken)
    else
      (.error (NewIllegalArgumentError "wrong access token or email"), c)

/-- `userServiceImpl.ResetPassword`: find the account by email, consume
the registration token, then compare the token's bound email to the
request email and check the minimum password length; on success rehash
(bcrypt is abstracted by `hash`) and persist the new password, marking the
account verified. -/
def ResetPassword (hash : String → String) (db : UserDB) (cache : RegTokenCache)
    (email password accessToken : String) (now : Int) :
    Except YggError Unit × UserDB × RegTokenCache :=
  match findByEmail db email with
  | none => (.error (NewIllegalArgumentError "user not found"), db, cache)
  | some user =>
    match regVerifyToken cache accessToken now with
    | (.error e, cache') => (.error e, db, cache')
    | (.ok tokenEmail, cache') =>
      if tokenEmail ≠ email then
        (.error (NewIllegalArgumentError "email invalid"), db, cache')
      else if password.length < 6 then
        (.error (NewIllegalArgumentError "bad format(password longer than 5)"), db, cache')
      else
        (.ok (),
          db.map (fun u => if u.id = user.id then
            { u with password := hash password, emailVerified := true } else u),
          cache')

/-! ## Login rate limiting (`userServiceImpl.allowUser`), `Login` and
`Register` (`service/user_service.go`) -/

/-- Modelled from the spec: the third-party token-bucket limiter
`golang.org/x/time/rate.Limiter` (dependency code, not in the repository)
— "a token-bucket limiter (refill 0.2/s, burst 3)".  A limiter starts with
a full bucket; `allow` refills proportionally to elapsed time (capped at
`burst`) and consumes one token when at least one is available.
Timestamps are Unix milliseconds, tokens are exact rationals. -/
structure RateLimiter where
  limit : ℚ
  burst : ℚ
  tokens : ℚ
  last : Int
deriving DecidableEq, Repr

/-- Modelled from the spec: `rate.NewLimiter(limit, burst)` — the bucket
starts full. -/
def RateLimiter.new (limit burst : ℚ) (now : Int) : RateLimiter :=
  ⟨limit, burst, burst, now⟩

/-- Modelled from the spec: `Limiter.Allow()` — refill
`elapsed_seconds * limit` tokens capped at `burst`, then consume one if
at least one is available. -/
def RateLimiter.allow (l : RateLimiter) (now : Int) : Bool × RateLimiter :=
  let t := min l.burst (l.tokens + ((now - l.last : Int) : ℚ) * l.limit / 1000)
  if 1 ≤ t then (true, { l with tokens := t - 1, last := now })
  else (false, { l with tokens := t, last := now })

/-- The user service's rate-limiter LRU cache
(`userServiceImpl.limitLruCache`, capacity 10,000; capacity eviction not
modelled). -/
def LimCache : Type := String → Option RateLimiter

/-- `userServiceImpl.allowUser`: consult the per-email limiter if one is
cached; otherwise create a fresh `rate.NewLimiter(0.2, 3)` for the email
and return true WITHOUT consuming a token from it. -/
def allowUser (cache : LimCache) (username : String) (now : Int) : Bool × LimCache :=
  match cache username with
  | some limiter =>
    let (ok, limiter') := limiter.allow now
    (ok, fun k => if k = username then some limiter' else cache k)
  | none =>
    (true, fun k => if k = username then some (RateLimiter.new (0.2 : ℚ) 3 now) else cache k)

/-- The HTTP 429 error `Login`/`Signout` return when throttled. -/
def RateLimitError : YggError := ⟨429, "ForbiddenOperationException", "Forbidden"⟩

/-- `userServiceImpl.Login`: throttle per email, look the account up by
email, compare the password hash (bcrypt is abstracted: the stored hash
must equal `hash password`), reject unverified accounts, then mint a
token.  `freshAccess`/`freshClient` stand for the two `util.RandomUUID()`
draws.  Returns the access token on success plus the updated limiter and
token caches. -/
def Login (db : UserDB) (lim : LimCache) (tokens : TokenCache) (hash : String → String)
    (freshAccess freshClient : String) (username password : String)
    (clientToken : Option String) (now : Int) :
    Except YggError String × LimCache × TokenCache :=
  let (allowed, lim') := allowUser lim username now
  if ¬ allowed then
    (.error RateLimitError, lim', tokens)
  else
    match findByEmail db username with
    | some user =>
      if hash password = user.password then
        if ¬ user.emailVerified then
          (.error (NewForbiddenOperationError "Email not verified"), lim', tokens)
        else
          let useClientToken := match clientToken with
            | none => freshClient
            | some ct => if ct = "" then freshClient else ct
          let token : Token := ⟨now, useClientToken, freshAccess, ⟨user.id, user.profileName⟩⟩
          (.ok token.accessToken, lim',
            fun k => if k = freshAccess then some token else tokens k)
      else (.error (NewForbiddenOperationError MessageInvalidCredentials), lim', tokens)
    | none => (.error (NewForbiddenOperationError MessageInvalidCredentials), lim', tokens)

/-- Structural split of a character list on a separator character (used to
embed the registration email regular expression; Go's `regexp` engine is
dependency code). -/
def splitOnChar (sep : Char) : List Char → List (List Char)
  | [] => [[]]
  | c :: rest =>
    let r := splitOnChar sep rest
    if c = sep then [] :: r
    else match r with
      | [] => [[c]]
      | seg :: segs => (c :: seg) :: segs

/-- `\w` of Go's `regexp`: ASCII letters, digits and underscore. -/
def isWordChar (c : Char) : Bool := c.isAlphanum || c = '_'

/-- One dot-separated segment of the email pattern: at least `firstMin`
word characters and nothing else. -/
def wordSeg (firstMin : Nat) (seg : List Char) : Bool :=
  decide (firstMin ≤ seg.length) && seg.all isWordChar

/-- The registration email pattern
`^(\w){3,}(\.\w+)*@(\w){2,}((\.\w+)+)$` from `Register`, embedded
directly: a local part of dot-separated word segments whose first segment
has ≥ 3 characters, an `@`, and a domain of ≥ 2 dot-separated word
segments whose first has ≥ 2 characters. -/
def emailPatternMatches (s : String) : Bool :=
  match splitOnChar '@' s.toList with
  | [localPart, domainPart] =>
    (match splitOnChar '.' localPart with
      | [] => false
      | s0 :: rest => wordSeg 3 s0 && rest.all (wordSeg 1)) &&
    (match splitOnChar '.' domainPart with
      | [] => false
      | d0 :: rest => wordSeg 2 d0 && decide (1 ≤ rest.length) && rest.all (wordSeg 1))
  | _ => false

/-- `service.isInvalidProfileName`: empty, contains a space, or has at
most one character. -/
def isInvalidProfileName (name : String) : Bool :=
  decide (name = "") || name.toList.contains ' ' || decide (name.length ≤ 1)

/-- `userServiceImpl.Register`: reject an already-registered email, an
already-used profile name, a profile name that resolves on the hard-coded
official lookup (`mojangHasName` abstracts that outbound call), and badly
formatted inputs; then create the account (fresh uuid abstracted as
`newId`, bcrypt as `hash`).  The created record's `EmailVerified` field is
the Go zero value `false`; the trailing `_ = u.SendEmail(...)` only
touches the limiter/registration-token caches (and with SMTP disabled
`SendTokenEmail` returns immediately), so it never changes the stored
account and is omitted here. -/
def Register (mojangHasName : String → Bool) (hash : String → String) (newId : Nat)
    (db : UserDB) (username password profileName ip : String) :
    Except YggError Nat × UserDB :=
  if 0 < db.countP (fun u => u.email = username) then
    (.error (NewForbiddenOperationError "email exist"), db)
  else if 0 < db.countP (fun u => u.profileName = profileName) then
    (.error (NewForbiddenOperationError "profileName exist"), db)
  else if mojangHasName profileName then
    (.error (NewForbiddenOperationError "profileName duplicate"), db)
  else if ¬ emailPatternMatches username ∨ password.length < 6 ∨
      isInvalidProfileName profileName then
    (.error (NewIllegalArgumentError
      "bad format(valid email, password longer than 5, profileName longer than 1)"), db)
  else
    (.ok newId, db ++ [⟨newId, username, hash password, false, profileName⟩])

/-! ## Texture content hashing (`model/texture.go`) -/

/-- One pixel after `color.NRGBAModel.Convert(img.At(x, y))`: straight
(non-premultiplied) 8-bit channels.  (The conversion itself is Go
standard-library code; images are modelled by their dimensions and this
converted-pixel accessor.) -/
structure NRGBA where
  a : Nat
  r : Nat
  g : Nat
  b : Nat
deriving DecidableEq, Repr

/-- A decoded image as `ComputeTextureId` consumes it: `Bounds().Dx()`,
`Bounds().Dy()`, and the NRGBA pixel at each (x, y). -/
structure TexImage where
  width : Nat
  height : Nat
  pixel : Nat → Nat → NRGBA

/-- `model.putInt`: a 32-bit big-endian two's-complement byte encoding
(`int32` conversion wraps modulo 2^32). -/
def putInt (n : Int) : List Nat :=
  let m := (n % (2 ^ 32 : Int)).toNat
  [m / 2 ^ 24 % 256, m / 2 ^ 16 % 256, m / 2 ^ 8 % 256, m % 256]

/-- The 4-byte alpha,red,green,blue group for one pixel; a pixel whose
alpha is exactly 0 is emitted as four zero bytes. -/
def pixelBytes (p : NRGBA) : List Nat :=
  if p.a = 0 then [0, 0, 0, 0] else [p.a, p.r, p.g, p.b]

/-- Appending one 4-byte group to the 4096-byte accumulation buffer,
flushing into the digest when full (`pos == len(buf)` in the source).
State: (chunks written to the digest so far, current buffer content). -/
def pushBytes (st : List (List Nat) × List Nat) (bytes : List Nat) :
    List (List Nat) × List Nat :=
  let buf := st.2 ++ bytes
  if buf.length = 4096 then (st.1 ++ [buf], []) else (st.1, buf)

/-- `model.ComputeTextureId`'s digest feed: width and height via `putInt`
at buffer offsets 0 and 4, then one group per pixel with x as the outer
and y as the inner loop, through the 4096-byte buffer, with a final
partial flush.  The returned list is the sequence of `digest.Write`
calls. -/
def computeTextureChunks (img : TexImage) : List (List Nat) :=
  let init : List (List Nat) × List Nat :=
    ([], putInt (Int.ofNat img.width) ++ putInt (Int.ofNat img.height))
  let st := (List.range img.width).foldl (fun st x =>
    (List.range img.height).foldl (fun st y =>
      pushBytes st (pixelBytes (img.pixel x y))) st) init
  if st.2.length > 0 then st.1 ++ [st.2] else st.1

/-- The SHA-256 digest abstracted (`crypto/sha256` is library code):
`write` is `digest.Write`, `finalizeHex` is
`hex.EncodeToString(digest.Sum(nil))`. -/
structure DigestModel (α : Type) where
  init : α
  write : α → List Nat → α
  finalizeHex : α → String

/-- `model.ComputeTextureId` over the abstract digest: feed every chunk,
then finalize to lowercase hex. -/
def ComputeTextureId {α : Type} (D : DigestModel α) (img : TexImage) : String :=
  D.finalizeHex ((computeTextureChunks img).foldl D.write D.init)

/-- Written from the spec's words, to be compared with the source
translation: "the byte stream formed by the image width then height as
4-byte big-endian signed integers, followed by one 4-byte
alpha,red,green,blue group per pixel taken with x as the OUTER loop (0 to
width−1) and y as the INNER loop (0 to height−1), and any pixel whose
alpha is exactly 0 emitted as four zero bytes". -/
def specPixelStream (img : TexImage) : List Nat :=
  putInt (Int.ofNat img.width) ++ putInt (Int.ofNat img.height) ++
    (List.range img.width).flatMap (fun x =>
      (List.range img.height).flatMap (fun y => pixelBytes (img.pixel x y)))

/-! ## Foreign bearer-token payload decoding (`util/token_utils.go`) -/

/-- One entry of the payload's `pfd` array (only id and name are read). -/
structure PfdEntry where
  id : String
  name : String
deriving DecidableEq, Repr

/-- Outcome of the middle steps `base64.RawURLEncoding.DecodeString` plus
`json.Unmarshal` (library code, abstracted): a decode/parse error, or the
payload's `pfd` array (`[]` covers both JSON `null` and an empty array,
which the source's `payload.Pfd == nil || len(payload.Pfd) == 0` treats
identically). -/
inductive DecodeOutcome where
  | err
  | payload (pfd : List PfdEntry)

/-- Result of `ParseOfficialToken`; `panic` models a Go runtime panic. -/
inductive ParseResult where
  | ok (id name : String)
  | errInvalidToken
  | errDecode
  | panic
deriving DecidableEq, Repr

/-- `strings.IndexRune`: position of the first occurrence, or −1.
(Positions are character indices; on the ASCII inputs of interest Go's
byte indices coincide.) -/
def goIndexRune : List Char → Char → Int
  | [], _ => -1
  | c :: rest, target =>
    if c = target then 0
    else
      let idx := goIndexRune rest target
      if idx = -1 then -1 else idx + 1

/-- Go string slicing `s[lo:hi]`: `none` models the runtime panic raised
unless `0 ≤ lo ≤ hi ≤ len s`. -/
def goSlice (s : List Char) (lo hi : Int) : Option (List Char) :=
  if 0 ≤ lo ∧ lo ≤ hi ∧ hi ≤ (s.length : Int) then
    some ((s.drop lo.toNat).take (hi - lo).toNat)
  else none

/-- `util.ParseOfficialToken`: find the first dot; compute
`secondDot = 1 + firstDot + IndexRune(token[firstDot+1:], '.')`; guard
`secondDot == -1`; slice out `token[firstDot+1 : secondDot]`; decode and
parse it (abstracted by `decodeParse`); and take id/name from the first
`pfd` entry. -/
def ParseOfficialToken (decodeParse : List Char → DecodeOutcome) (token : List Char) :
    ParseResult :=
  let firstDot := goIndexRune token '.'
  if firstDot = -1 then .errInvalidToken
  else
    let secondDot := 1 + firstDot + goIndexRune (token.drop (firstDot + 1).toNat) '.'
    if secondDot = -1 then .errInvalidToken
    else
      match goSlice token (firstDot + 1) secondDot with
      | none => .panic
      | some jsonBase64 =>
        match decodeParse jsonBase64 with
        | .err => .errDecode
        | .payload pfd =>
          match pfd with
          | [] => .errInvalidToken
          | e :: _ => .ok e.id e.name

/-! ## Texture reference counting (`service/texture_service.go`) -/

/-- `strings.ToUpper` restricted to ASCII (the texture-type strings of
interest). -/
def goToUpper (s : String) : String := String.mk (s.toList.map Char.toUpper)

/-- The slot normalization shared by `saveTexture` and `DeleteTexture`:
uppercase, then anything other than SKIN or CAPE becomes SKIN. -/
def normalizeTextureType (s : String) : String :=
  let u := goToUpper s
  if u ≠ "SKIN" ∧ u ≠ "CAPE" then "SKIN" else u

/-- The two texture slots an account has. -/
inductive TexSlot where
  | skin
  | cape
deriving DecidableEq, Repr

/-- The normalized texture type as a slot. -/
def slotOf (s : String) : TexSlot :=
  if normalizeTextureType s = "CAPE" then .cape else .skin

/-- `model.ModelType`. -/
inductive ModelType where
  | STEVE
  | ALEX
deriving DecidableEq, Repr

/-- `saveTexture`'s model-value resolution: a non-nil ALEX pointer keeps
ALEX, everything else becomes STEVE. -/
def resolveModelValue : Option ModelType → ModelType
  | some .ALEX => .ALEX
  | _ => .STEVE

/-- An account's profile as the texture service mutates it: the model
type and the slot→hash map (`SerializedTextures`), with its two possible
slots inlined as fields. -/
structure TexProfile where
  modelType : ModelType
  skin : Option String
  cape : Option String
deriving DecidableEq, Repr

/-- `profile.Textures[slot]` lookup. -/
def TexProfile.get (p : TexProfile) : TexSlot → Option String
  | .skin => p.skin
  | .cape => p.cape

/-- `profile.Textures[slot] = v` / `delete(profile.Textures, slot)`. -/
def TexProfile.set (p : TexProfile) : TexSlot → Option String → TexProfile
  | .skin, v => { p with skin := v }
  | .cape, v => { p with cape := v }

/-- The database as the texture service sees it: the `users` table's
texture-relevant columns (account id → profile, primary key unique) and
the `textures` table (hash → reference count `used`; the stored image
bytes are irrelevant to the counting invariant). -/
structure TexDB where
  users : List (Nat × TexProfile)
  textures : String → Option Nat

/-- `db.First(&user, profileId)`. -/
def lookupUser (users : List (Nat × TexProfile)) (uid : Nat) : Option TexProfile :=
  (users.find? (fun p => p.1 = uid)).map Prod.snd

/-- `tx.Save(&user)`: replace the row with this primary key. -/
def updateUser (users : List (Nat × TexProfile)) (uid : Nat) (prof : TexProfile) :
    List (Nat × TexProfile) :=
  users.map (fun p => if p.1 = uid then (uid, prof) else p)

/-- `textureServiceImpl.saveTexture`'s transaction body, as one atomic
step (the source wraps exactly this in `db.Transaction`, so the row
lookups, the create/increment of the new hash's row, the
decrement/delete of the old hash's row, and the account save commit
together).  `hash` is `model.ComputeTextureId(skinImage)`; the PNG
re-encoding is not modelled.  A missing user (`db.First` failure in the
callers) leaves the state unchanged. -/
def saveTexture (db : TexDB) (uid : Nat) (hash : String) (textureType : String)
    (modelType : Option ModelType) : TexDB :=
  match lookupUser db.users uid with
  | none => db
  | some profile0 =>
    let modelValue := resolveModelValue modelType
    let slot := slotOf textureType
    let profile1 :=
      if slot = TexSlot.skin then { profile0 with modelType := modelValue } else profile0
    let oldHash := profile1.get slot
    let tex1 : String → Option Nat :=
      match db.textures hash with
      | none =>
        -- texture row does not exist: create it with used = 1
        fun h => if h = hash then some 1 else db.textures h
      | some n =>
        -- row exists: increment unless this is a re-upload of the same hash
        if oldHash ≠ some hash then
          fun h => if h = hash then some (n + 1) else db.textures h
        else db.textures
    let tex2 : String → Option Nat :=
      match oldHash with
      | some old =>
        if old ≠ hash then
          match tex1 old with
          | some m =>
            if m < 2 then fun h => if h = old then none else tex1 h
            else fun h => if h = old then some (m - 1) else tex1 h
          | none => tex1
        else tex1
      | none => tex1
    { users := updateUser db.users uid (profile1.set slot (some hash)), textures := tex2 }

/-- `DeleteTexture`'s transaction body for the texture row: if a row with
this hash exists it is deleted when `used < 2` and decremented otherwise;
a missing row is left alone (the `First` error is swallowed). -/
def adjustTextureRow (textures : String → Option Nat) (hash : String) :
    String → Option Nat :=
  match textures hash with
  | some n =>
    if n < 2 then fun h => if h = hash then none else textures h
    else fun h => if h = hash then some (n - 1) else textures h
  | none => textures

/-- `textureServiceImpl.DeleteTexture` from the slot normalization on
(the token-validity and profile-id checks of the handler are upstream).
`snap` is the calling token's cached profile snapshot
(`token.SelectedProfile`): when the snapshot holds the slot, the hash is
read from it and the WHOLE snapshot, minus the slot, is what
`user.SetProfile(profile)` persists over the database record; only when
the snapshot lacks the slot does the code fall back to the freshly
loaded database profile.  The snapshot read precedes the transaction; in
a sequential trace the read and the transaction compose as one atomic
step, modelled here.  The `Bool` distinguishes success from the
error paths, which leave the state unchanged. -/
def deleteTexture (db : TexDB) (uid : Nat) (snap : TexProfile) (textureType : String) :
    TexDB × Bool :=
  match lookupUser db.users uid with
  | none => (db, false)
  | some profile =>
    let slot := slotOf textureType
    match snap.get slot with
    | some hash =>
      ({ users := updateUser db.users uid (snap.set slot none),
         textures := adjustTextureRow db.textures hash }, true)
    | none =>
      match profile.get slot with
      | none => (db, false)
      | some hash =>
        ({ users := updateUser db.users uid (profile.set slot none),
           textures := adjustTextureRow db.textures hash }, true)

/-- How many of this profile's slots hold the hash. -/
def slotCount (p : TexProfile) (h : String) : Nat :=
  (if p.skin = some h then 1 else 0) + (if p.cape = some h then 1 else 0)

/-- How many account texture slots across all accounts hold the hash. -/
def refCount (users : List (Nat × TexProfile)) (h : String) : Nat :=
  (users.map (fun p => slotCount p.2 h)).sum

/-- The claimed invariant: account ids are unique (primary key), every
texture row's `used` equals the number of account texture slots currently
mapping to its hash, and a hash with no row is referenced by no slot. -/
def TexInv (db : TexDB) : Prop :=
  (db.users.map Prod.fst).Nodup ∧
  ∀ h : String,
    (∀ n, db.textures h = some n → n = refCount db.users h) ∧
    (db.textures h = none → refCount db.users h = 0)

/-- One texture operation of the claimed sequence; a delete carries the
calling token's cached profile snapshot. -/
inductive TexOp where
  | save (uid : Nat) (hash : String) (textureType : String) (modelType : Option ModelType)
  | del (uid : Nat) (snap : TexProfile) (textureType : String)

/-- Apply one operation. -/
def applyTexOp (db : TexDB) : TexOp → TexDB
  | .save uid hash ty mt => saveTexture db uid hash ty mt
  | .del uid snap ty => (deleteTexture db uid snap ty).1

/-- A delete's snapshot is benign at this state: either the snapshot
lacks the slot (the code falls back to the database profile), or its
slot map agrees with the account's database profile (a fresh snapshot).
A stale snapshot — one whose slots disagree with the database — is
exactly what this excludes. -/
def snapFresh (db : TexDB) (uid : Nat) (snap : TexProfile) (ty : String) : Prop :=
  match lookupUser db.users uid with
  | none => True
  | some profile => snap.get (slotOf ty) = none ∨
      (snap.skin = profile.skin ∧ snap.cape = profile.cape)

/-- Every delete in the sequence runs against a benign snapshot at its
point of application. -/
def opsConsistent : TexDB → List TexOp → Prop
  | _, [] => True
  | db, op :: rest =>
    (match op with
     | .save _ _ _ _ => True
     | .del uid snap ty => snapFresh db uid snap ty) ∧
    opsConsistent (applyTexOp db op) rest

/-- `UpstreamServiceStatus` of part_008. -/
inductive UpstreamStatus where
  | available
  | unavailable
deriving DecidableEq, Repr

/-- The fields of `util.UpstreamConfig` the circuit breaker reads:
`RetryInterval` (requests) and `RecoveryTimeout` (milliseconds). -/
structure UpstreamConfig where
  retryInterval : Nat
  recoveryTimeout : Int
deriving DecidableEq, Repr

/-- `UpstreamServiceState`: the per-upstream circuit-breaker fields (the
seven endpoint URLs and the HTTP timeout play no role in the breaker and
are omitted).  Times are Unix milliseconds. -/
structure UpstreamServiceState where
  id : String
  status : UpstreamStatus
  lastErr : Option String
  lastFail : Int
  failCnt : Nat
  retryAt : Int
  successCount : Nat
  totalRequests : Nat
deriving DecidableEq, Repr

/-- The initial state `NewUpstreamService` builds for each configured
upstream: `Status: StatusAvailable`, zero counters. -/
def initUpstreamState (id : String) : UpstreamServiceState :=
  { id := id, status := .available, lastErr := none, lastFail := 0, failCnt := 0,
    retryAt := 0, successCount := 0, totalRequests := 0 }

/-- `upstreamService`: config, per-upstream states, the degraded-mode
flag, and the process-wide request counter (an int64). -/
structure UpstreamService where
  config : UpstreamConfig
  upstreams : List UpstreamServiceState
  degradedMode : Bool
  requestCounter : Int
deriving DecidableEq, Repr

/-- `NewUpstreamService`: `degradedMode := len(upstreamConfigs) == 0`,
and one initially-available state per configured upstream id. -/
def NewUpstreamService (config : UpstreamConfig) (upstreamConfigs : List String) :
    UpstreamService :=
  { config := config,
    upstreams := upstreamConfigs.map initUpstreamState,
    degradedMode := upstreamConfigs.isEmpty,
    requestCounter := 0 }

/-- `markUpstreamUnavailable`: status Unavailable, record the error and
failure time, increment the failure count, and set
`RetryAt = now + RecoveryTimeout`.  A missing id is a no-op. -/
def markUpstreamUnavailable (u : UpstreamService) (upstreamID : String) (err : String)
    (now : Int) : UpstreamService :=
  { u with upstreams := u.upstreams.map (fun state =>
      if state.id = upstreamID then
        { state with status := .unavailable, lastErr := some err, lastFail := now,
                     failCnt := state.failCnt + 1,
                     retryAt := now + u.config.recoveryTimeout }
      else state) }

/-- `markUpstreamAvailable`: status Available and the last error cleared,
regardless of prior state. -/
def markUpstreamAvailable (u : UpstreamService) (upstreamID : String) : UpstreamService :=
  { u with upstreams := u.upstreams.map (fun state =>
      if state.id = upstreamID then
        { state with status := .available, lastErr := none }
      else state) }

/-- `shouldRetryUnavailableUpstream`: available, or the current time is
after `RetryAt`, or the request counter is a multiple of the configured
retry interval. -/
def shouldRetryUnavailableUpstream (u : UpstreamService) (state : UpstreamServiceState)
    (now : Int) : Bool :=
  if state.status = .available then true
  else if state.retryAt < now then true
  else decide (u.requestCounter % (u.config.retryInterval : Int) = 0)

/-- `incrementRequestCounter`. -/
def incrementRequestCounter (u : UpstreamService) : UpstreamService :=
  { u with requestCounter := u.requestCounter + 1 }

/-- `getAvailableUpstreams`: keep the available states plus the
unavailable ones `shouldRetryUnavailableUpstream` admits. -/
def getAvailableUpstreams (u : UpstreamService) (now : Int) : List UpstreamServiceState :=
  u.upstreams.filter (fun state =>
    if state.status = .available then true
    else shouldRetryUnavailableUpstream u state now)

/-- The three ways one `reqFunc` call inside `requestAllUpstreams`'s
worker can come back: a transport error (`err != nil`), a delivered
response (`resp != nil`, carrying the upstream's own IsSuccess flag and
status code), or `err == nil && resp == nil`. -/
inductive CallOutcome where
  | transportErr (msg : String)
  | response (isSuccess : Bool) (statusCode : Nat) (errMsg : Option String)
  | nilResponse
deriving DecidableEq, Repr

/-- The state effect of `requestAllUpstreams`'s worker for one upstream:
a transport error marks it unavailable; a delivered response — whatever
its IsSuccess flag — bumps SuccessCount/TotalRequests and marks it
available; a nil response with nil error touches nothing. -/
def processCallOutcome (u : UpstreamService) (state : UpstreamServiceState)
    (outcome : CallOutcome) (now : Int) : UpstreamService :=
  match outcome with
  | .transportErr msg => markUpstreamUnavailable u state.id msg now
  | .response _ _ _ =>
    let u' := { u with upstreams := u.upstreams.map (fun s =>
      if s.id = state.id then
        { s with successCount := s.successCount + 1,
                 totalRequests := s.totalRequests + 1 }
      else s) }
    markUpstreamAvailable u' state.id
  | .nilResponse => u

/-- `dto.UpstreamProfileResponse` as an opaque payload. -/
structure UpstreamProfileResponse where
  body : String
deriving DecidableEq, Repr

/-- `dto.ProfileResponse` as an opaque payload. -/
structure ProfileResponse where
  body : String
deriving DecidableEq, Repr

/-- `dto.JoinedResponse` as an opaque payload. -/
structure JoinedResponse where
  body : String
deriving DecidableEq, Repr

/-- `dto.PublicKeysResponse` as an opaque payload. -/
structure PublicKeysResponse where
  body : String
deriving DecidableEq, Repr

/-- The outcome of one federation operation: the Go `(value, error)`
pair, the list of upstream ids actually sent an HTTP request, and the
service state afterwards. -/
def FedOutcome (α : Type) : Type :=
  Except String α × List String × UpstreamService

/-- `LookupProfile`: the degraded-mode check comes first and returns
`(nil, nil)` before the counter increment, the pool acquire and any
fan-out; otherwise the fan-out (modelled by the `run` oracle) happens on
the counter-incremented service. -/
def LookupProfile (u : UpstreamService) (profileID : String) (unsigned : Bool)
    (run : UpstreamService → FedOutcome (Option UpstreamProfileResponse)) :
    FedOutcome (Option UpstreamProfileResponse) :=
  if u.degradedMode then (Except.ok none, [], u)
  else run (incrementRequestCounter u)

/-- `LookupByName`, same degraded-mode shape. -/
def LookupByName (u : UpstreamService) (username : String)
    (run : UpstreamService → FedOutcome (Option UpstreamProfileResponse)) :
    FedOutcome (Option UpstreamProfileResponse) :=
  if u.degradedMode then (Except.ok none, [], u)
  else run (incrementRequestCounter u)

/-- `LookupByUUID`, same degraded-mode shape. -/
def LookupByUUID (u : UpstreamService) (uuid : String)
    (run : UpstreamService → FedOutcome (Option UpstreamProfileResponse)) :
    FedOutcome (Option UpstreamProfileResponse) :=
  if u.degradedMode then (Except.ok none, [], u)
  else run (incrementRequestCounter u)

/-- `LookupBulkProfiles`: degraded mode returns the nil slice. -/
def LookupBulkProfiles (u : UpstreamService) (usernames : List String)
    (run : UpstreamService → FedOutcome (Option (List ProfileResponse))) :
    FedOutcome (Option (List ProfileResponse)) :=
  if u.degradedMode then (Except.ok none, [], u)
  else run (incrementRequestCounter u)

/-- `VerifySession` returns only an error; degraded mode returns nil. -/
def VerifySession (u : UpstreamService) (accessToken selectedProfile serverId : String)
    (run : UpstreamService → FedOutcome Unit) : FedOutcome Unit :=
  if u.degradedMode then (Except.ok (), [], u)
  else run (incrementRequestCounter u)

/-- `HasJoined` of the upstream service, same degraded-mode shape. -/
def HasJoined (u : UpstreamService) (username serverId : String) (ipAddress : Option String)
    (run : UpstreamService → FedOutcome (Option JoinedResponse)) :
    FedOutcome (Option JoinedResponse) :=
  if u.degradedMode then (Except.ok none, [], u)
  else run (incrementRequestCounter u)

/-- `GetPublicKeys`: degraded mode is a hard error, before any request. -/
def GetPublicKeys (u : UpstreamService)
    (run : UpstreamService → FedOutcome (Option PublicKeysResponse)) :
    FedOutcome (Option PublicKeysResponse) :=
  if u.degradedMode then
    (Except.error "public keys service unavailable: no upstream services configured", [], u)
  else run (incrementRequestCounter u)

/-! ## Theorems -/

/-- C2 (amended).  Token availability is a pure function of age with the
thresholds 15 and 30 days: Valid while age ≤ 15 days, NeedRefresh while
15 days < age ≤ 30 days, Invalid beyond 30 days.  For a cached token whose
age-derived level is Invalid, `VerifyToken` called with an absent or
matching client token returns Invalid and evicts the token, so a
subsequent `GetToken` with the same access token reports not-found.
(Amendment: the eviction clause requires the supplied client token to be
absent or matching; a `VerifyToken` call with a mismatching client token
returns Invalid early without evicting — see the counterexample.) -/
theorem C2_token_age_levels_and_eviction (t : Token) (now : Int) :
    (t.GetAvailableLevel now = .Valid ↔ now - t.createAt ≤ 15 * msPerDay) ∧
    (t.GetAvailableLevel now = .NeedRefresh ↔
      15 * msPerDay < now - t.createAt ∧ now - t.createAt ≤ 30 * msPerDay) ∧
    (t.GetAvailableLevel now = .Invalid ↔ 30 * msPerDay < now - t.createAt) ∧
    (∀ (c : TokenCache) (accessToken : String) (clientToken : Option String),
      c accessToken = some t →
      t.accessToken = accessToken →
      clientTokenMismatch clientToken t = false →
      t.GetAvailableLevel now = .Invalid →
      (verifyToken c accessToken clientToken now).1 = .Invalid ∧
      getToken (verifyToken c accessToken clientToken now).2 accessToken = none) := by
  have h30 : (15 : Int) * msPerDay < 30 * msPerDay := by norm_num [msPerDay]
  refine ⟨?_, ?_, ?_, ?_⟩
  · unfold Token.GetAvailableLevel
    dsimp only
    split
    · simp only [reduceCtorEq, false_iff]; omega
    · split
      · simp only [reduceCtorEq, false_iff]; omega
      · simp only [true_iff]; omega
  · unfold Token.GetAvailableLevel
    dsimp only
    split
    · simp only [reduceCtorEq, false_iff]; omega
    · split
      · simp only [true_iff]; omega
      · simp only [reduceCtorEq, false_iff]; omega
  · unfold Token.GetAvailableLevel
    dsimp only
    split
    · simp only [true_iff]; omega
    · split
      · simp only [reduceCtorEq, false_iff]; omega
      · simp only [reduceCtorEq, false_iff]; omega
  · intro c accessToken clientToken hc hacc hmm hinv
    unfold verifyToken
    rw [hc]
    simp only [hmm, Bool.false_eq_true, if_false, hinv, reduceIte]
    refine ⟨trivial, ?_⟩
    unfold getToken removeAccessToken
    rw [hacc]
    simp

/-- Witness for C2: a token created at time 0 observed at 31 days with no
client token supplied is Invalid and gets evicted. -/
theorem C2_witness :
    let t : Token := ⟨0, "ct", "ak", ⟨1, "Alice"⟩⟩
    let c : TokenCache := fun k => if k = "ak" then some t else none
    (t.GetAvailableLevel (31 * msPerDay) = .Invalid ↔
      30 * msPerDay < 31 * msPerDay - t.createAt) ∧
    ((verifyToken c "ak" none (31 * msPerDay)).1 = .Invalid ∧
      getToken (verifyToken c "ak" none (31 * msPerDay)).2 "ak" = none) := by
  intro t c
  refine ⟨(C2_token_age_levels_and_eviction t (31 * msPerDay)).2.2.1, ?_⟩
  exact (C2_token_age_levels_and_eviction t (31 * msPerDay)).2.2.2 c "ak" none
    (by decide) (by decide) (by decide) (by decide)

/-- Counterexample for C2 as stated: a cached token aged 31 days observed
by `VerifyToken` with a MISMATCHING client token returns Invalid but is
NOT evicted — `GetToken` afterwards still finds it, contradicting the
claim that every observation of an age-Invalid token evicts it. -/
theorem C2_counterexample :
    let t : Token := ⟨0, "ct", "ak", ⟨1, "Alice"⟩⟩
    let c : TokenCache := fun k => if k = "ak" then some t else none
    t.GetAvailableLevel (31 * msPerDay) = .Invalid ∧
    (verifyToken c "ak" (some "other") (31 * msPerDay)).1 = .Invalid ∧
    getToken (verifyToken c "ak" (some "other") (31 * msPerDay)).2 "ak" = some t := by
  decide

/-- C3 (amended).  For a recorded authentication session,
`HasJoinedServer` returns the signed complete profile if and only if the
session stored under `serverId` is not older than 30 seconds, its profile
name equals the declared username exactly, and (when a non-empty ip was
supplied) the ip equals the session's recorded IP.  The federation layer
is consulted only on a genuine cache miss: a stale or mismatched cached
session yields 204 WITHOUT delegating to the federation layer's
`HasJoined` (amendment — the claim stated stale/mismatched sessions are
treated the same as a miss; see the counterexample).  On a miss the
operation delegates to the federation layer when one is configured and
reports 204 when it yields nothing. -/
theorem C3_hasjoined_matching_and_fallback (cache : SessionCache)
    (upstream : Option (Except YggError (Option CompleteProfileResp)))
    (serverId username ip textureBaseUrl : String) (now : Int) :
    (∀ session, cache serverId = some session →
      ((HasJoinedServer cache upstream serverId username ip textureBaseUrl now).1 =
          .ok (toCompleteResponse session.token.selectedProfile true textureBaseUrl) ↔
        (session.HasExpired now = false ∧ (ip = "" ∨ ip = session.ip) ∧
          session.token.selectedProfile.name = username)) ∧
      (HasJoinedServer cache upstream serverId username ip textureBaseUrl now).2.2 = false) ∧
    (cache serverId = none →
      ((HasJoinedServer cache upstream serverId username ip textureBaseUrl now).2.2 ↔
        upstream ≠ none) ∧
      (upstream = none →
        (HasJoinedServer cache upstream serverId username ip textureBaseUrl now).1 =
          .error NoContentError) ∧
      (∀ e, upstream = some (.error e) →
        (HasJoinedServer cache upstream serverId username ip textureBaseUrl now).1 =
          .error e) ∧
      (∀ p, upstream = some (.ok (some p)) →
        (HasJoinedServer cache upstream serverId username ip textureBaseUrl now).1 =
          .ok p) ∧
      (upstream = some (.ok none) →
        (HasJoinedServer cache upstream serverId username ip textureBaseUrl now).1 =
          .error NoContentError)) := by
  constructor
  · intro session hs
    unfold HasJoinedServer
    rw [hs]
    dsimp only
    constructor
    · split
      · rename_i hcond
        simp only [true_iff]
        refine ⟨by simpa using hcond.1, hcond.2.1, hcond.2.2⟩
      · rename_i hcond
        simp only [Except.ok.injEq, reduceCtorEq, false_iff]
        intro hcontra
        exact hcond ⟨by simp [hcontra.1], hcontra.2.1, hcontra.2.2⟩
    · split <;> rfl
  · intro hnone
    unfold HasJoinedServer
    rw [hnone]
    refine ⟨?_, ?_, ?_, ?_, ?_⟩
    · cases upstream with
      | none => simp
      | some r => cases r with
        | error e => simp
        | ok o => cases o <;> simp
    · intro h; rw [h]
    · intro e h; rw [h]
    · intro p h; rw [h]
    · intro h; rw [h]

/-- Witness for C3: a fresh matching session is confirmed (profile
returned, upstream not consulted), and on a cache miss with no upstream
the result is the 204 sentinel. -/
theorem C3_witness :
    let session : AuthSession := ⟨"S", ⟨0, "ct", "ak", ⟨1, "Alice"⟩⟩, "1.2.3.4", 0⟩
    let cache : SessionCache := fun k => if k = "S" then some session else none
    ((HasJoinedServer cache none "S" "Alice" "1.2.3.4" "http://t" 1000).1 =
        .ok (toCompleteResponse session.token.selectedProfile true "http://t") ↔
      (session.HasExpired 1000 = false ∧ ("1.2.3.4" = "" ∨ "1.2.3.4" = session.ip) ∧
        session.token.selectedProfile.name = "Alice")) ∧
    ((fun _ => none : SessionCache) "S" = none →
      (HasJoinedServer (fun _ => none) none "S" "Alice" "1.2.3.4" "http://t" 1000).1 =
        .error NoContentError) := by
  intro session cache
  refine ⟨((C3_hasjoined_matching_and_fallback cache none "S" "Alice" "1.2.3.4"
    "http://t" 1000).1 session (by decide)).1, ?_⟩
  intro h
  exact ((C3_hasjoined_matching_and_fallback (fun _ => none) none "S" "Alice" "1.2.3.4"
    "http://t" 1000).2 h).2.1 rfl

/-- Counterexample for C3 as stated: a cached session for server id "S"
with profile name "Alice" queried for username "Bob" (a mismatched
session) yields the 204 sentinel directly and does NOT delegate to the
federation layer, even though a configured upstream would have confirmed
the join — contradicting the claim that a mismatched session is treated
the same as a cache miss. -/
theorem C3_counterexample :
    let session : AuthSession := ⟨"S", ⟨0, "ct", "ak", ⟨1, "Alice"⟩⟩, "1.2.3.4", 0⟩
    let cache : SessionCache := fun k => if k = "S" then some session else none
    let upstreamProfile : CompleteProfileResp := ⟨⟨2, "Bob"⟩, true, "http://t"⟩
    let r := HasJoinedServer cache (some (.ok (some upstreamProfile))) "S" "Bob"
      "1.2.3.4" "http://t" 1000
    r.1 = .error NoContentError ∧ r.2.2 = false := by
  exact ⟨rfl, rfl⟩

/-- C10.  `ResetPassword` consumes the single-use registration token
before the token-email comparison and the minimum-password-length check:
when the target email belongs to an account and the supplied token is
cached and unexpired, but the token's bound email differs from the request
email or the new password is shorter than 6, the operation returns an
error with the accounts table (hence the account's password and
verification flag) unchanged, the token already removed from the cache,
and an immediate retry with the same token fails with the invalid-token
error. -/
theorem C10_reset_password_consumes_token_first
    (hash : String → String) (db : UserDB) (cache : RegTokenCache)
    (email password accessToken : String) (now : Int) (user : UserRec) (t : RegToken) :
    findByEmail db email = some user →
    cache accessToken = some t →
    t.IsValid now = true →
    (t.email ≠ email ∨ password.length < 6) →
    (∃ e, (ResetPassword hash db cache email password accessToken now).1 = .error e) ∧
    (ResetPassword hash db cache email password accessToken now).2.1 = db ∧
    (ResetPassword hash db cache email password accessToken now).2.2 accessToken = none ∧
    (ResetPassword hash
      (ResetPassword hash db cache email password accessToken now).2.1
      (ResetPassword hash db cache email password accessToken now).2.2
      email password accessToken now).1 =
        .error (NewIllegalArgumentError MessageInvalidToken) := by
  intro hfind hcache hvalid hfail
  have hverify : regVerifyToken cache accessToken now =
      (.ok t.email, removeRegToken cache accessToken) := by
    unfold regVerifyToken
    rw [hcache]
    simp [hvalid]
  have hremoved : removeRegToken cache accessToken accessToken = none := by
    unfold removeRegToken
    simp
  have hmain : ResetPassword hash db cache email password accessToken now =
      (if t.email ≠ email then
        (.error (NewIllegalArgumentError "email invalid"), db, removeRegToken cache accessToken)
      else if password.length < 6 then
        (.error (NewIllegalArgumentError "bad format(password longer than 5)"), db,
          removeRegToken cache accessToken)
      else
        (.ok (),
          db.map (fun u => if u.id = user.id then
            { u with password := hash password, emailVerified := true } else u),
          removeRegToken cache accessToken)) := by
    unfold ResetPassword
    rw [hfind, hverify]
  by_cases hemail : t.email = email
  · have hlen : password.length < 6 := by
      cases hfail with
      | inl h => exact absurd hemail h
      | inr h => exact h
    rw [hmain]
    simp only [hemail, ne_eq, not_true_eq_false, if_false, reduceIte, hlen, if_true]
    refine ⟨⟨_, by trivial⟩, by trivial, hremoved, ?_⟩
    unfold ResetPassword
    rw [hfind]
    unfold regVerifyToken
    rw [hremoved]
  · rw [hmain]
    simp only [hemail, ne_eq, not_false_eq_true, if_true, reduceIte]
    refine ⟨⟨_, by trivial⟩, by trivial, hremoved, ?_⟩
    unfold ResetPassword
    rw [hfind]
    unfold regVerifyToken
    rw [hremoved]

/-- Witness for C10: an account for `a@b.com` and a fresh token bound to
`other@b.com` — the reset fails, the table is unchanged, the token is
spent, and the retry reports the invalid-token error. -/
theorem C10_witness :
    let user : UserRec := ⟨1, "a@b.com", "h0", true, "Alice"⟩
    let t : RegToken := ⟨0, "tok", "other@b.com"⟩
    let db : UserDB := [user]
    let cache : RegTokenCache := fun k => if k = "tok" then some t else none
    (∃ e, (ResetPassword id db cache "a@b.com" "secret1" "tok" 1000).1 = .error e) ∧
    (ResetPassword id db cache "a@b.com" "secret1" "tok" 1000).2.1 = db ∧
    (ResetPassword id db cache "a@b.com" "secret1" "tok" 1000).2.2 "tok" = none ∧
    (ResetPassword id
      (ResetPassword id db cache "a@b.com" "secret1" "tok" 1000).2.1
      (ResetPassword id db cache "a@b.com" "secret1" "tok" 1000).2.2
      "a@b.com" "secret1" "tok" 1000).1 =
        .error (NewIllegalArgumentError MessageInvalidToken) := by
  intro user t db cache
  exact C10_reset_password_consumes_token_first id db cache "a@b.com" "secret1" "tok" 1000
    user t (by decide) (by decide) (by decide) (Or.inl (by decide))

/-- C4 (code-bug evidence).  With the registration-token service (SMTP)
disabled, `Register` with well-formed, non-colliding inputs succeeds but
stores the account with `EmailVerified = false` (the Go zero value —
nothing in `Register` ever sets it), so the subsequent `Login` with the
correct credentials fails with "Email not verified".  This contradicts the
claim (and the repository's own test `TestRegisterWithoutSMTP` and its
README, which promise self-verification when SMTP is disabled). -/
theorem C4_register_smtp_disabled_leaves_unverified :
    (Register (fun _ => false) id 1 [] "test@example.com" "password123"
      "YggTestUser001" "127.0.0.1").1 = .ok 1 ∧
    findByEmail (Register (fun _ => false) id 1 [] "test@example.com" "password123"
      "YggTestUser001" "127.0.0.1").2 "test@example.com" =
      some ⟨1, "test@example.com", "password123", false, "YggTestUser001"⟩ ∧
    (Login (Register (fun _ => false) id 1 [] "test@example.com" "password123"
        "YggTestUser001" "127.0.0.1").2 (fun _ => none) (fun _ => none) id "fa" "fc"
      "test@example.com" "password123" none 0).1 =
        .error (NewForbiddenOperationError "Email not verified") := by
  refine ⟨?_, ?_, ?_⟩ <;> rfl

/-- `allowUser` on an email whose limiter is cached consults that
limiter. -/
theorem allowUser_cached (cache : LimCache) (username : String) (now : Int)
    (l : RateLimiter) (h : cache username = some l) :
    allowUser cache username now = ((l.allow now).1,
      fun k => if k = username then some (l.allow now).2 else cache k) := by
  unfold allowUser
  rw [h]

/-- `allowUser` on a fresh email creates a full bucket and returns true
without consuming from it. -/
theorem allowUser_fresh (cache : LimCache) (username : String) (now : Int)
    (h : cache username = none) :
    allowUser cache username now = (true,
      fun k => if k = username then some (RateLimiter.new (0.2 : ℚ) 3 now) else cache k) := by
  unfold allowUser
  rw [h]

/-- `Limiter.Allow` when the refilled bucket stays below the cap and holds
at least one token: consume one. -/
theorem allow_accept_under_cap (l : RateLimiter) (now : Int)
    (h1 : 1 ≤ l.tokens + ((now - l.last : Int) : ℚ) * l.limit / 1000)
    (hcap : l.tokens + ((now - l.last : Int) : ℚ) * l.limit / 1000 ≤ l.burst) :
    l.allow now = (true, ⟨l.limit, l.burst,
      l.tokens + ((now - l.last : Int) : ℚ) * l.limit / 1000 - 1, now⟩) := by
  unfold RateLimiter.allow
  dsimp only
  rw [min_eq_right hcap, if_pos h1]

/-- `Limiter.Allow` when the refill reaches the cap (and the cap is at
least one): the bucket is clamped to `burst` and one token is consumed. -/
theorem allow_accept_at_cap (l : RateLimiter) (now : Int)
    (h1 : 1 ≤ l.burst)
    (hcap : l.burst ≤ l.tokens + ((now - l.last : Int) : ℚ) * l.limit / 1000) :
    l.allow now = (true, ⟨l.limit, l.burst, l.burst - 1, now⟩) := by
  unfold RateLimiter.allow
  dsimp only
  rw [min_eq_left hcap, if_pos h1]

/-- `Limiter.Allow` rejects when fewer than one token is available. -/
theorem allow_reject (l : RateLimiter) (now : Int)
    (hx : l.tokens + ((now - l.last : Int) : ℚ) * l.limit / 1000 < 1) :
    (l.allow now).1 = false := by
  unfold RateLimiter.allow
  dsimp only
  rw [if_neg]
  intro h
  exact absurd (le_trans h (min_le_right _ _)) (not_le.mpr hx)

/-- `Login` propagates the limiter state computed by `allowUser`, and
returns the HTTP 429 rate-limit error exactly when `allowUser` rejected
the attempt (every other outcome — success or a credentials/verification
failure — is a different value, so throttling happens before credential
checking). -/
theorem login_throttle_split (db : UserDB) (lim : LimCache) (tokens : TokenCache)
    (hash : String → String) (fa fc email pw : String) (ct : Option String) (now : Int) :
    (Login db lim tokens hash fa fc email pw ct now).2.1 = (allowUser lim email now).2 ∧
    ((Login db lim tokens hash fa fc email pw ct now).1 = .error RateLimitError ↔
      (allowUser lim email now).1 = false) := by
  unfold Login
  rcases hA : allowUser lim email now with ⟨allowed, lim'⟩
  cases allowed with
  | false =>
    dsimp only
    simp only [Bool.false_eq_true, not_false_eq_true, if_true]
    exact ⟨by trivial, by simp⟩
  | true =>
    dsimp only
    rw [if_neg (by simp)]
    constructor
    · cases hF : findByEmail db email with
      | none => rfl
      | some user =>
        dsimp only
        split
        · split
          · rfl
          · rfl
        · rfl
    · cases hF : findByEmail db email with
      | none => simp [NewForbiddenOperationError, RateLimitError]
      | some user =>
        dsimp only
        split
        · split
          · simp [NewForbiddenOperationError, RateLimitError]
          · simp
        · simp [NewForbiddenOperationError, RateLimitError]

/-- Chaining lemma: a `Login` attempt on an email whose limiter is not
yet cached is admitted, and leaves a freshly created full bucket
(`rate.NewLimiter(0.2, 3)`) in the limiter cache. -/
theorem login_chain_start (db : UserDB) (lim : LimCache) (tokens : TokenCache)
    (hash : String → String) (fa fc email pw : String) (ct : Option String) (now : Int)
    (hl : lim email = none) :
    (Login db lim tokens hash fa fc email pw ct now).2.1 email =
      some (RateLimiter.new (0.2 : ℚ) 3 now) ∧
    (Login db lim tokens hash fa fc email pw ct now).1 ≠ .error RateLimitError := by
  have hs := login_throttle_split db lim tokens hash fa fc email pw ct now
  have hA := allowUser_fresh lim email now hl
  constructor
  · rw [hs.1, hA]
    simp
  · rw [ne_eq, hs.2, hA]
    simp

/-- Chaining lemma: a `Login` attempt on an email whose limiter is cached
consults that limiter; the attempt is throttled with the 429 error exactly
when `Allow` rejects, and the limiter cache afterwards holds the advanced
bucket. -/
theorem login_chain_step (db : UserDB) (lim : LimCache) (tokens : TokenCache)
    (hash : String → String) (fa fc email pw : String) (ct : Option String) (now : Int)
    (L : RateLimiter) (ok' : Bool) (L' : RateLimiter)
    (hL : lim email = some L) (hallow : L.allow now = (ok', L')) :
    (Login db lim tokens hash fa fc email pw ct now).2.1 email = some L' ∧
    ((Login db lim tokens hash fa fc email pw ct now).1 = .error RateLimitError ↔
      ok' = false) := by
  have hs := login_throttle_split db lim tokens hash fa fc email pw ct now
  have hA : allowUser lim email now =
      (ok', fun k => if k = email then some L' else lim k) := by
    rw [allowUser_cached lim email now L hL, hallow]
  constructor
  · rw [hs.1, hA]
    simp
  · rw [hs.2, hA]

/-- `Login` succeeds with the minted access token when the attempt is
admitted by the limiter, the account exists, the password matches, and the
email is verified. -/
theorem login_success (db : UserDB) (lim : LimCache) (tokens : TokenCache)
    (hash : String → String) (fa fc email pw : String) (ct : Option String) (now : Int)
    (user : UserRec) (lim' : LimCache)
    (hA : allowUser lim email now = (true, lim'))
    (hF : findByEmail db email = some user)
    (hpw : hash pw = user.password)
    (hv : user.emailVerified = true) :
    (Login db lim tokens hash fa fc email pw ct now).1 = .ok fa := by
  unfold Login
  rw [hA]
  dsimp only
  rw [if_neg (by simp), hF]
  dsimp only
  rw [if_pos hpw, if_neg (by simp [hv])]

/-- C9 (amended).  Login throttling is a per-email token bucket with
refill 0.2/s and burst 3, and a rejected attempt fails with the HTTP 429
Forbidden error before credential checking.  However the very first
attempt for a previously-unseen email only creates the limiter and is
admitted without consuming a token, so for a fresh email FIVE attempts
within one second are needed to observe a rejection: the first four are
not throttled (they reach credential checking) and the fifth fails with
the rate-limit error.  (Amendment: the claim said the 4th of 4 attempts
within a second is rejected; see the counterexample, where all 4 attempts
pass.) -/
theorem C9_login_throttling_bucket (db : UserDB) (t0c : TokenCache) (l0 : LimCache)
    (hash : String → String) (email : String)
    (pw1 pw2 pw3 pw4 pw5 a1 a2 a3 a4 a5 c1 c2 c3 c4 c5 : String)
    (ct1 ct2 ct3 ct4 ct5 : Option String) (t1 t2 t3 t4 t5 : Int)
    (hl0 : l0 email = none)
    (h12 : t1 ≤ t2) (h23 : t2 ≤ t3) (h34 : t3 ≤ t4) (h45 : t4 ≤ t5)
    (hwin : t5 ≤ t1 + 1000) :
    let r1 := Login db l0 t0c hash a1 c1 email pw1 ct1 t1
    let r2 := Login db r1.2.1 r1.2.2 hash a2 c2 email pw2 ct2 t2
    let r3 := Login db r2.2.1 r2.2.2 hash a3 c3 email pw3 ct3 t3
    let r4 := Login db r3.2.1 r3.2.2 hash a4 c4 email pw4 ct4 t4
    let r5 := Login db r4.2.1 r4.2.2 hash a5 c5 email pw5 ct5 t5
    r1.1 ≠ .error RateLimitError ∧ r2.1 ≠ .error RateLimitError ∧
    r3.1 ≠ .error RateLimitError ∧ r4.1 ≠ .error RateLimitError ∧
    r5.1 = .error RateLimitError := by
  dsimp only
  have h02 : (0.2 : ℚ) = 1/5 := by norm_num
  have hc2 : (0 : ℚ) ≤ ((t2 - t1 : Int) : ℚ) := by exact_mod_cast (by omega : (0:Int) ≤ t2 - t1)
  have hc3 : (0 : ℚ) ≤ ((t3 - t2 : Int) : ℚ) := by exact_mod_cast (by omega : (0:Int) ≤ t3 - t2)
  have hc4 : (0 : ℚ) ≤ ((t4 - t3 : Int) : ℚ) := by exact_mod_cast (by omega : (0:Int) ≤ t4 - t3)
  have hc5 : (0 : ℚ) ≤ ((t5 - t4 : Int) : ℚ) := by exact_mod_cast (by omega : (0:Int) ≤ t5 - t4)
  have hsum : ((t3 - t2 : Int) : ℚ) + ((t4 - t3 : Int) : ℚ) + ((t5 - t4 : Int) : ℚ) ≤ 1000 := by
    have h : ((t5 - t2 : Int) : ℚ) ≤ 1000 := by
      exact_mod_cast (by omega : (t5 - t2 : Int) ≤ 1000)
    push_cast at h ⊢
    linarith
  have d2 : ((t2 - t1 : Int) : ℚ) * (0.2 : ℚ) / 1000 = ((t2 - t1 : Int) : ℚ) / 5000 := by
    rw [h02]; ring
  have d3 : ((t3 - t2 : Int) : ℚ) * (0.2 : ℚ) / 1000 = ((t3 - t2 : Int) : ℚ) / 5000 := by
    rw [h02]; ring
  have d4 : ((t4 - t3 : Int) : ℚ) * (0.2 : ℚ) / 1000 = ((t4 - t3 : Int) : ℚ) / 5000 := by
    rw [h02]; ring
  have d5 : ((t5 - t4 : Int) : ℚ) * (0.2 : ℚ) / 1000 = ((t5 - t4 : Int) : ℚ) / 5000 := by
    rw [h02]; ring
  -- the four concrete bucket evaluations
  have hall2 : (RateLimiter.new (0.2 : ℚ) 3 t1).allow t2 =
      (true, ⟨(0.2 : ℚ), 3, 2, t2⟩) := by
    rw [allow_accept_at_cap (RateLimiter.new (0.2 : ℚ) 3 t1) t2
      (by simp [RateLimiter.new])
      (by simp only [RateLimiter.new]; rw [d2]; linarith)]
    simp only [RateLimiter.new]
    norm_num
  have hall3 : RateLimiter.allow ⟨(0.2 : ℚ), 3, 2, t2⟩ t3 =
      (true, ⟨(0.2 : ℚ), 3, 2 + ((t3 - t2 : Int) : ℚ) * (0.2 : ℚ) / 1000 - 1, t3⟩) :=
    allow_accept_under_cap ⟨(0.2 : ℚ), 3, 2, t2⟩ t3
      (by dsimp only; rw [d3]; linarith)
      (by dsimp only; rw [d3]; linarith)
  have hall4 : RateLimiter.allow
      ⟨(0.2 : ℚ), 3, 2 + ((t3 - t2 : Int) : ℚ) * (0.2 : ℚ) / 1000 - 1, t3⟩ t4 =
      (true, ⟨(0.2 : ℚ), 3, (2 + ((t3 - t2 : Int) : ℚ) * (0.2 : ℚ) / 1000 - 1) +
        ((t4 - t3 : Int) : ℚ) * (0.2 : ℚ) / 1000 - 1, t4⟩) :=
    allow_accept_under_cap _ t4
      (by dsimp only; rw [d3, d4]; linarith)
      (by dsimp only; rw [d3, d4]; linarith)
  have hall5 : (RateLimiter.allow
      ⟨(0.2 : ℚ), 3, (2 + ((t3 - t2 : Int) : ℚ) * (0.2 : ℚ) / 1000 - 1) +
        ((t4 - t3 : Int) : ℚ) * (0.2 : ℚ) / 1000 - 1, t4⟩ t5).1 = false := by
    apply allow_reject
    dsimp only
    rw [d3, d4, d5]
    linarith
  -- chain the five attempts
  have P1 := login_chain_start db l0 t0c hash a1 c1 email pw1 ct1 t1 hl0
  set T1 := Login db l0 t0c hash a1 c1 email pw1 ct1 t1 with hT1
  have P2 := login_chain_step db T1.2.1 T1.2.2 hash a2 c2 email pw2 ct2 t2
    (RateLimiter.new (0.2 : ℚ) 3 t1) true ⟨(0.2 : ℚ), 3, 2, t2⟩ P1.1 hall2
  set T2 := Login db T1.2.1 T1.2.2 hash a2 c2 email pw2 ct2 t2 with hT2
  have P3 := login_chain_step db T2.2.1 T2.2.2 hash a3 c3 email pw3 ct3 t3
    ⟨(0.2 : ℚ), 3, 2, t2⟩ true
    ⟨(0.2 : ℚ), 3, 2 + ((t3 - t2 : Int) : ℚ) * (0.2 : ℚ) / 1000 - 1, t3⟩ P2.1 hall3
  set T3 := Login db T2.2.1 T2.2.2 hash a3 c3 email pw3 ct3 t3 with hT3
  have P4 := login_chain_step db T3.2.1 T3.2.2 hash a4 c4 email pw4 ct4 t4
    ⟨(0.2 : ℚ), 3, 2 + ((t3 - t2 : Int) : ℚ) * (0.2 : ℚ) / 1000 - 1, t3⟩ true
    ⟨(0.2 : ℚ), 3, (2 + ((t3 - t2 : Int) : ℚ) * (0.2 : ℚ) / 1000 - 1) +
      ((t4 - t3 : Int) : ℚ) * (0.2 : ℚ) / 1000 - 1, t4⟩ P3.1 hall4
  set T4 := Login db T3.2.1 T3.2.2 hash a4 c4 email pw4 ct4 t4 with hT4
  have hs5 := login_throttle_split db T4.2.1 T4.2.2 hash a5 c5 email pw5 ct5 t5
  refine ⟨P1.2, ?_, ?_, ?_, ?_⟩
  · rw [ne_eq, P2.2]
    simp
  · rw [ne_eq, P3.2]
    simp
  · rw [ne_eq, P4.2]
    simp
  · rw [hs5.2, allowUser_cached T4.2.1 email t5 _ P4.1]
    exact hall5

/-- Witness for C9: five attempts at times 0, 0, 0, 0, 1000 for a fresh
email — the first four are admitted, the fifth is throttled with the 429
error. -/
theorem C9_witness :
    let db : UserDB := [⟨1, "a@b.com", "secret1", true, "Alice"⟩]
    let r1 := Login db (fun _ => none) (fun _ => none) id "a1" "c1" "a@b.com" "secret1" none 0
    let r2 := Login db r1.2.1 r1.2.2 id "a2" "c2" "a@b.com" "secret1" none 0
    let r3 := Login db r2.2.1 r2.2.2 id "a3" "c3" "a@b.com" "secret1" none 0
    let r4 := Login db r3.2.1 r3.2.2 id "a4" "c4" "a@b.com" "secret1" none 0
    let r5 := Login db r4.2.1 r4.2.2 id "a5" "c5" "a@b.com" "secret1" none 1000
    r1.1 ≠ .error RateLimitError ∧ r2.1 ≠ .error RateLimitError ∧
    r3.1 ≠ .error RateLimitError ∧ r4.1 ≠ .error RateLimitError ∧
    r5.1 = .error RateLimitError := by
  exact C9_login_throttling_bucket [⟨1, "a@b.com", "secret1", true, "Alice"⟩]
    (fun _ => none) (fun _ => none) id "a@b.com"
    "secret1" "secret1" "secret1" "secret1" "secret1"
    "a1" "a2" "a3" "a4" "a5" "c1" "c2" "c3" "c4" "c5"
    none none none none none 0 0 0 0 1000
    rfl (by norm_num) (by norm_num) (by norm_num) (by norm_num) (by norm_num)

/-- Counterexample for C9 as stated: for a fresh email, FOUR login
attempts within one second ALL reach credential checking and succeed —
the fourth is not rejected with the rate-limit error, because the first
attempt only created the limiter without consuming a token from it. -/
theorem C9_counterexample :
    let db : UserDB := [⟨1, "a@b.com", "secret1", true, "Alice"⟩]
    let r1 := Login db (fun _ => none) (fun _ => none) id "a1" "c1" "a@b.com" "secret1" none 0
    let r2 := Login db r1.2.1 r1.2.2 id "a2" "c2" "a@b.com" "secret1" none 0
    let r3 := Login db r2.2.1 r2.2.2 id "a3" "c3" "a@b.com" "secret1" none 0
    let r4 := Login db r3.2.1 r3.2.2 id "a4" "c4" "a@b.com" "secret1" none 0
    r1.1 = .ok "a1" ∧ r2.1 = .ok "a2" ∧ r3.1 = .ok "a3" ∧ r4.1 = .ok "a4" := by
  dsimp only
  have husr : findByEmail [(⟨1, "a@b.com", "secret1", true, "Alice"⟩ : UserRec)] "a@b.com" =
      some ⟨1, "a@b.com", "secret1", true, "Alice"⟩ := by decide
  have hall2 : (RateLimiter.new (0.2 : ℚ) 3 0).allow 0 = (true, ⟨(0.2 : ℚ), 3, 2, 0⟩) := by
    rw [allow_accept_at_cap (RateLimiter.new (0.2 : ℚ) 3 0) 0
      (by simp [RateLimiter.new]) (by simp [RateLimiter.new])]
    simp only [RateLimiter.new]
    norm_num
  have hall3 : RateLimiter.allow ⟨(0.2 : ℚ), 3, 2, 0⟩ 0 = (true, ⟨(0.2 : ℚ), 3, 1, 0⟩) := by
    rw [allow_accept_under_cap ⟨(0.2 : ℚ), 3, 2, 0⟩ 0 (by norm_num) (by norm_num)]
    norm_num
  have hall4 : RateLimiter.allow ⟨(0.2 : ℚ), 3, 1, 0⟩ 0 = (true, ⟨(0.2 : ℚ), 3, 0, 0⟩) := by
    rw [allow_accept_under_cap ⟨(0.2 : ℚ), 3, 1, 0⟩ 0 (by norm_num) (by norm_num)]
    norm_num
  have hA1 := allowUser_fresh (fun _ => none) "a@b.com" 0 rfl
  have P1 := login_chain_start [(⟨1, "a@b.com", "secret1", true, "Alice"⟩ : UserRec)]
    (fun _ => none) (fun _ => none) id "a1" "c1" "a@b.com" "secret1" none 0 rfl
  set T1 := Login [(⟨1, "a@b.com", "secret1", true, "Alice"⟩ : UserRec)]
    (fun _ => none) (fun _ => none) id "a1" "c1" "a@b.com" "secret1" none 0 with hT1
  have hA2 : allowUser T1.2.1 "a@b.com" 0 = (true,
      fun k => if k = "a@b.com" then some ⟨(0.2 : ℚ), 3, 2, 0⟩ else T1.2.1 k) := by
    rw [allowUser_cached T1.2.1 "a@b.com" 0 _ P1.1, hall2]
  have P2 := login_chain_step [(⟨1, "a@b.com", "secret1", true, "Alice"⟩ : UserRec)]
    T1.2.1 T1.2.2 id "a2" "c2" "a@b.com" "secret1" none 0
    (RateLimiter.new (0.2 : ℚ) 3 0) true ⟨(0.2 : ℚ), 3, 2, 0⟩ P1.1 hall2
  set T2 := Login [(⟨1, "a@b.com", "secret1", true, "Alice"⟩ : UserRec)]
    T1.2.1 T1.2.2 id "a2" "c2" "a@b.com" "secret1" none 0 with hT2
  have hA3 : allowUser T2.2.1 "a@b.com" 0 = (true,
      fun k => if k = "a@b.com" then some ⟨(0.2 : ℚ), 3, 1, 0⟩ else T2.2.1 k) := by
    rw [allowUser_cached T2.2.1 "a@b.com" 0 _ P2.1, hall3]
  have P3 := login_chain_step [(⟨1, "a@b.com", "secret1", true, "Alice"⟩ : UserRec)]
    T2.2.1 T2.2.2 id "a3" "c3" "a@b.com" "secret1" none 0
    ⟨(0.2 : ℚ), 3, 2, 0⟩ true ⟨(0.2 : ℚ), 3, 1, 0⟩ P2.1 hall3
  set T3 := Login [(⟨1, "a@b.com", "secret1", true, "Alice"⟩ : UserRec)]
    T2.2.1 T2.2.2 id "a3" "c3" "a@b.com" "secret1" none 0 with hT3
  have hA4 : allowUser T3.2.1 "a@b.com" 0 = (true,
      fun k => if k = "a@b.com" then some ⟨(0.2 : ℚ), 3, 0, 0⟩ else T3.2.1 k) := by
    rw [allowUser_cached T3.2.1 "a@b.com" 0 _ P3.1, hall4]
  refine ⟨?_, ?_, ?_, ?_⟩
  · exact login_success _ _ _ id "a1" "c1" "a@b.com" "secret1" none 0 _ _ hA1 husr rfl rfl
  · exact login_success _ _ _ id "a2" "c2" "a@b.com" "secret1" none 0 _ _ hA2 husr rfl rfl
  · exact login_success _ _ _ id "a3" "c3" "a@b.com" "secret1" none 0 _ _ hA3 husr rfl rfl
  · exact login_success _ _ _ id "a4" "c4" "a@b.com" "secret1" none 0 _ _ hA4 husr rfl rfl

/-- The buffered accumulation is stream-preserving: after pushing a list
of byte groups, the flushed chunks plus the live buffer spell out the
original state's content followed by all pushed bytes. -/
theorem pushBytes_fold_join (groups : List (List Nat)) :
    ∀ st : List (List Nat) × List Nat,
      ((groups.foldl pushBytes st).1).flatten ++ (groups.foldl pushBytes st).2 =
        st.1.flatten ++ st.2 ++ groups.flatten := by
  induction groups with
  | nil =>
    intro st
    simp
  | cons g gs ih =>
    intro st
    rw [List.foldl_cons, ih]
    unfold pushBytes
    dsimp only
    split
    · simp [List.flatten_append, List.append_assoc]
    · simp [List.append_assoc]

/-- Folding `pushBytes` over a nested x/y loop equals folding it over the
flattened group list. -/
theorem double_fold_pushBytes (h : Nat) (g : Nat → Nat → List Nat) :
    ∀ (xs : List Nat) (st : List (List Nat) × List Nat),
      xs.foldl (fun st x =>
        (List.range h).foldl (fun st y => pushBytes st (g x y)) st) st =
      (xs.flatMap (fun x => (List.range h).map (g x))).foldl pushBytes st := by
  intro xs
  induction xs with
  | nil =>
    intro st
    simp
  | cons x xs ih =>
    intro st
    rw [List.flatMap_cons, List.foldl_append, List.foldl_cons, ih, List.foldl_map]

/-- `flatten` distributes over `flatMap`. -/
theorem flatten_flatMap_eq {β : Type} (f : β → List (List Nat)) :
    ∀ xs : List β, (xs.flatMap f).flatten = xs.flatMap (fun x => (f x).flatten) := by
  intro xs
  induction xs with
  | nil => simp
  | cons x xs ih => simp [List.flatMap_cons, List.flatten_append, ih]

/-- The chunk sequence fed to the digest spells out exactly the spec's
byte stream. -/
theorem computeTextureChunks_join (img : TexImage) :
    (computeTextureChunks img).flatten = specPixelStream img := by
  unfold computeTextureChunks
  dsimp only
  rw [double_fold_pushBytes]
  have hst := pushBytes_fold_join
    ((List.range img.width).flatMap (fun x =>
      (List.range img.height).map (fun y => pixelBytes (img.pixel x y))))
    ([], putInt (Int.ofNat img.width) ++ putInt (Int.ofNat img.height))
  split
  · rename_i hpos
    rw [List.flatten_append, List.flatten_cons, List.flatten_nil, List.append_nil, hst]
    unfold specPixelStream
    rw [flatten_flatMap_eq]
    simp only [List.flatten_nil, List.nil_append, List.append_assoc]
    congr 2
  · rename_i hpos
    have hnil : ((((List.range img.width).flatMap (fun x =>
        (List.range img.height).map (fun y => pixelBytes (img.pixel x y)))).foldl pushBytes
        ([], putInt (Int.ofNat img.width) ++ putInt (Int.ofNat img.height))).2) = [] := by
      simpa using hpos
    rw [← List.append_nil (List.flatten _), ← hnil, hst]
    unfold specPixelStream
    rw [flatten_flatMap_eq]
    simp only [List.flatten_nil, List.nil_append, List.append_assoc]
    congr 2

/-- C7.  `ComputeTextureId` digests exactly the spec's byte stream: for
any streaming digest (one whose `write` concatenates, as SHA-256's does),
feeding the chunks produced by the 4096-byte buffer with its final partial
flush yields the same result as one write of the stream formed by the
width and height as 4-byte big-endian signed integers followed by one
alpha,red,green,blue group per pixel, x outer and y inner, transparent
pixels zeroed. -/
theorem C7_texture_hash_digests_spec_stream {α : Type} (D : DigestModel α)
    (hD0 : ∀ s, D.write s [] = s)
    (hD : ∀ s a b, D.write (D.write s a) b = D.write s (a ++ b)) (img : TexImage) :
    ComputeTextureId D img = D.finalizeHex (D.write D.init (specPixelStream img)) := by
  have hfold : ∀ (cs : List (List Nat)) (s : α),
      cs.foldl D.write s = D.write s cs.flatten := by
    intro cs
    induction cs with
    | nil => intro s; simp [hD0]
    | cons c cs ih =>
      intro s
      rw [List.foldl_cons, ih, hD, List.flatten_cons]
  unfold ComputeTextureId
  rw [hfold, computeTextureChunks_join]

/-- Witness for C7: with the free-monoid digest (write is concatenation),
the two sides agree on a concrete 2×2 image containing a fully
transparent pixel column. -/
theorem C7_witness :
    (∀ s : List Nat, s ++ [] = s) ∧
    ComputeTextureId ⟨([] : List Nat), fun s c => s ++ c, fun l => toString l⟩
        ⟨2, 2, fun x y => ⟨x, y + 1, 7, 9⟩⟩ =
      toString (([] : List Nat) ++
        specPixelStream ⟨2, 2, fun x y => ⟨x, y + 1, 7, 9⟩⟩) :=
  ⟨fun s => List.append_nil s,
    C7_texture_hash_digests_spec_stream
      ⟨([] : List Nat), fun s c => s ++ c, fun l => toString l⟩
      (fun s => List.append_nil s)
      (fun s a b => List.append_assoc s a b)
      ⟨2, 2, fun x y => ⟨x, y + 1, 7, 9⟩⟩⟩

/-- C8 (code-bug evidence).  `ParseOfficialToken` panics (slice bounds out
of range) on any token with exactly one dot, such as `"a.b"`: with
`firstDot = 1`, `IndexRune` on the remainder returns −1, so
`secondDot = 1 + 1 + (−1) = firstDot`, the dead `secondDot == -1` guard
cannot fire, and `token[firstDot+1 : firstDot]` has its lower bound above
its upper bound.  This holds for every decode oracle, since the panic
happens before decoding.  A dot-less token still returns the
invalid-token error, and a well-formed two-dot token reaches the decode
step on the correct middle segment and returns the first pfd entry's id
and name. -/
theorem C8_parse_official_token_panics (decodeParse : List Char → DecodeOutcome) :
    ParseOfficialToken decodeParse ("a.b".toList) = .panic ∧
    ParseOfficialToken decodeParse ("ab".toList) = .errInvalidToken ∧
    ParseOfficialToken (fun _ => .payload [⟨"uuid0", "Alice"⟩]) ("a.b.c".toList) =
      .ok "uuid0" "Alice" ∧
    ParseOfficialToken (fun _ => .payload []) ("a.b.c".toList) = .errInvalidToken ∧
    ParseOfficialToken (fun _ => .err) ("a.b.c".toList) = .errDecode := by
  refine ⟨rfl, rfl, rfl, rfl, rfl⟩

/-- `updateUser` keeps the key column unchanged. -/
theorem keys_updateUser (users : List (Nat × TexProfile)) (uid : Nat) (prof : TexProfile) :
    (updateUser users uid prof).map Prod.fst = users.map Prod.fst := by
  unfold updateUser
  rw [List.map_map]
  apply List.map_congr_left
  intro p _
  by_cases hp : p.1 = uid
  · simp [hp]
  · simp [hp]

/-- `updateUser` is the identity when the key is absent. -/
theorem updateUser_not_mem (users : List (Nat × TexProfile)) (uid : Nat) (prof : TexProfile)
    (h : uid ∉ users.map Prod.fst) : updateUser users uid prof = users := by
  unfold updateUser
  conv_rhs => rw [← List.map_id users]
  apply List.map_congr_left
  intro p hp
  have hne : p.1 ≠ uid := by
    intro hq
    exact h (hq ▸ List.mem_map_of_mem Prod.fst hp)
  simp [hne]

/-- `lookupUser` over a cons cell. -/
theorem lookupUser_cons (a : Nat × TexProfile) (rest : List (Nat × TexProfile)) (uid : Nat) :
    lookupUser (a :: rest) uid = if a.1 = uid then some a.2 else lookupUser rest uid := by
  unfold lookupUser
  rw [List.find?_cons]
  by_cases ha : a.1 = uid
  · simp [ha]
  · simp [ha]

/-- `refCount` over a cons cell. -/
theorem refCount_cons (a : Nat × TexProfile) (rest : List (Nat × TexProfile)) (h : String) :
    refCount (a :: rest) h = slotCount a.2 h + refCount rest h := by
  unfold refCount
  rw [List.map_cons, List.sum_cons]

/-- A found profile's slot count is bounded by the global reference
count. -/
theorem refCount_lower (uid : Nat) (prof : TexProfile) (h : String) :
    ∀ users : List (Nat × TexProfile), lookupUser users uid = some prof →
      slotCount prof h ≤ refCount users h := by
  intro users
  induction users with
  | nil => intro hfind; simp [lookupUser] at hfind
  | cons a rest ih =>
    intro hfind
    rw [lookupUser_cons] at hfind
    by_cases ha : a.1 = uid
    · rw [if_pos ha] at hfind
      obtain rfl : a.2 = prof := Option.some_inj.mp hfind
      rw [refCount_cons]
      exact Nat.le_add_right _ _
    · rw [if_neg ha] at hfind
      have hrec := ih hfind
      rw [refCount_cons]
      omega

/-- Replacing a found user's profile changes the global reference count by
swapping that user's slot contribution. -/
theorem refCount_updateUser (uid : Nat) (prof prof' : TexProfile) (h : String) :
    ∀ users : List (Nat × TexProfile), (users.map Prod.fst).Nodup →
      lookupUser users uid = some prof →
      refCount (updateUser users uid prof') h + slotCount prof h =
        refCount users h + slotCount prof' h := by
  intro users
  induction users with
  | nil => intro _ hfind; simp [lookupUser] at hfind
  | cons a rest ih =>
    intro hnd hfind
    rw [List.map_cons, List.nodup_cons] at hnd
    rw [lookupUser_cons] at hfind
    by_cases ha : a.1 = uid
    · rw [if_pos ha] at hfind
      obtain rfl : a.2 = prof := Option.some_inj.mp hfind
      have hrest : updateUser rest uid prof' = rest :=
        updateUser_not_mem rest uid prof' (ha ▸ hnd.1)
      have hmap : updateUser (a :: rest) uid prof' = (uid, prof') :: rest := by
        unfold updateUser at hrest ⊢
        rw [List.map_cons, if_pos ha, hrest]
      rw [hmap, refCount_cons, refCount_cons]
      dsimp only
      omega
    · rw [if_neg ha] at hfind
      have hrec := ih hnd.2 hfind
      have hmap : updateUser (a :: rest) uid prof' = a :: updateUser rest uid prof' := by
        unfold updateUser
        rw [List.map_cons, if_neg ha]
      rw [hmap, refCount_cons, refCount_cons]
      omega

/-- Writing a slot swaps its contribution to the slot count. -/
theorem slotCount_set (p : TexProfile) (slot : TexSlot) (v : Option String) (h : String) :
    slotCount (p.set slot v) h + (if p.get slot = some h then 1 else 0) =
      slotCount p h + (if v = some h then 1 else 0) := by
  cases slot <;> simp only [TexProfile.set, TexProfile.get, slotCount] <;> ring

/-- A slot holding the hash contributes at least one reference. -/
theorem slotCount_get_pos (p : TexProfile) (slot : TexSlot) (h : String)
    (hh : p.get slot = some h) : 1 ≤ slotCount p h := by
  cases slot <;> simp only [TexProfile.get] at hh <;> simp [slotCount, hh]

/-- The model-type update does not touch the slots. -/
theorem get_set_modelType (p : TexProfile) (m : ModelType) (s : TexSlot) :
    TexProfile.get { p with modelType := m } s = p.get s := by
  cases s <;> rfl

/-- The model-type update does not change slot counts. -/
theorem slotCount_set_modelType (p : TexProfile) (m : ModelType) (h : String) :
    slotCount { p with modelType := m } h = slotCount p h := rfl

/-- Unfolds a row-correctness conjunction from a definite value. -/
theorem clauses_of_or {t : Option Nat} {r : Nat}
    (h : t = some r ∨ (t = none ∧ r = 0)) :
    (∀ n, t = some n → n = r) ∧ (t = none → r = 0) := by
  rcases h with h | ⟨h1, h2⟩
  · constructor
    · intro n hn
      rw [h] at hn
      exact (Option.some_inj.mp hn).symm
    · intro hn
      rw [h] at hn
      exact absurd hn (by simp)
  · exact ⟨fun n hn => absurd (h1 ▸ hn) (by simp), fun _ => h2⟩

/-- `saveTexture` preserves the reference-count invariant: a new row is
created with count 1, an existing row is incremented only when the slot
did not already hold this hash, and the slot's previous row is
decremented or deleted. -/
theorem saveTexture_preserves (db : TexDB) (uid : Nat) (hash textureType : String)
    (modelType : Option ModelType) (hInv : TexInv db) :
    TexInv (saveTexture db uid hash textureType modelType) := by
  obtain ⟨hnd, hrow⟩ := hInv
  unfold saveTexture
  cases hfind : lookupUser db.users uid with
  | none => exact ⟨hnd, hrow⟩
  | some profile0 =>
    dsimp only
    set slot := slotOf textureType with hslot
    set profile1 := (if slot = TexSlot.skin then
      { profile0 with modelType := resolveModelValue modelType } else profile0) with hprof1
    set tex1 := (match db.textures hash with
      | none => fun h => if h = hash then some 1 else db.textures h
      | some n =>
        if profile1.get slot ≠ some hash then
          fun h => if h = hash then some (n + 1) else db.textures h
        else db.textures) with htex1
    set tex2 := (match profile1.get slot with
      | some old =>
        if old ≠ hash then
          match tex1 old with
          | some m =>
            if m < 2 then fun h => if h = old then none else tex1 h
            else fun h => if h = old then some (m - 1) else tex1 h
          | none => tex1
        else tex1
      | none => tex1) with htex2
    set U' := updateUser db.users uid (profile1.set slot (some hash)) with hU'
    have hsc : ∀ h', slotCount profile1 h' = slotCount profile0 h' := by
      intro h'
      rw [hprof1]
      split <;> rfl
    have hget : ∀ s, profile1.get s = profile0.get s := by
      intro s
      rw [hprof1]
      split
      · exact get_set_modelType profile0 _ s
      · rfl
    have hkey : ∀ h', refCount U' h' + (if profile0.get slot = some h' then 1 else 0)
        = refCount db.users h' + (if hash = h' then 1 else 0) := by
      intro h'
      have hA := refCount_updateUser uid profile0 (profile1.set slot (some hash)) h'
        db.users hnd hfind
      have hB := slotCount_set profile1 slot (some hash) h'
      rw [hget slot, hsc h'] at hB
      have hsome : ((if (some hash : Option String) = some h' then 1 else 0) : Nat)
          = if hash = h' then 1 else 0 := by simp
      rw [hsome] at hB
      rw [hU']
      omega
    unfold TexInv
    refine ⟨?_, ?_⟩
    · show ((U'.map Prod.fst)).Nodup
      rw [hU', keys_updateUser]
      exact hnd
    · intro h'
      show (∀ n, tex2 h' = some n → n = refCount U' h') ∧
        (tex2 h' = none → refCount U' h' = 0)
      apply clauses_of_or
      cases hth : db.textures hash with
      | none =>
        rw [hth] at htex1
        dsimp only at htex1
        have hz : refCount db.users hash = 0 := (hrow hash).2 hth
        have hnotref : profile0.get slot ≠ some hash := by
          intro hcontra
          have h1 := slotCount_get_pos profile0 slot hash hcontra
          have h2 := refCount_lower uid profile0 hash db.users hfind
          omega
        cases hoh : profile1.get slot with
        | none =>
          rw [hoh] at htex2
          dsimp only at htex2
          have hget0 : profile0.get slot = none := by rw [← hget slot]; exact hoh
          by_cases hh : h' = hash
          · subst hh
            left
            have hv : tex2 h' = some 1 := by rw [htex2, htex1]; simp
            have hr : refCount U' h' = 1 := by
              have hk := hkey h'
              rw [if_neg (by rw [hget0]; simp), if_pos rfl] at hk
              omega
            rw [hv, hr]
          · have hv : tex2 h' = db.textures h' := by rw [htex2, htex1]; simp [hh]
            have hr : refCount U' h' = refCount db.users h' := by
              have hk := hkey h'
              rw [if_neg (by rw [hget0]; simp),
                if_neg (fun hc => hh hc.symm)] at hk
              omega
            cases hcase : db.textures h' with
            | none =>
              right
              exact ⟨by rw [hv, hcase], by rw [hr]; exact (hrow h').2 hcase⟩
            | some n =>
              left
              rw [hv, hcase, hr]
              exact congrArg some ((hrow h').1 n hcase)
        | some old =>
          rw [hoh] at htex2
          have hget0 : profile0.get slot = some old := by rw [← hget slot]; exact hoh
          have hone : old ≠ hash := fun hc => hnotref (hc ▸ hget0)
          dsimp only at htex2
          rw [if_pos hone] at htex2
          have htex1old : tex1 old = db.textures old := by rw [htex1]; simp [hone]
          have holdref : 1 ≤ refCount db.users old := by
            have h1 := slotCount_get_pos profile0 slot old hget0
            have h2 := refCount_lower uid profile0 old db.users hfind
            omega
          cases hto : db.textures old with
          | none => exact absurd ((hrow old).2 hto) (by omega)
          | some m =>
            have hm : m = refCount db.users old := (hrow old).1 m hto
            rw [hto] at htex1old
            rw [htex1old] at htex2
            dsimp only at htex2
            by_cases hm2 : m < 2
            · rw [if_pos hm2] at htex2
              by_cases hhold : h' = old
              · subst hhold
                right
                refine ⟨by rw [htex2]; simp, ?_⟩
                have hk := hkey h'
                rw [if_pos (by rw [hget0]),
                  if_neg (fun hc => hone (hc.symm))] at hk
                omega
              · by_cases hh : h' = hash
                · subst hh
                  left
                  have hv : tex2 h' = some 1 := by
                    rw [htex2]
                    dsimp only
                    rw [if_neg (fun hc => hone hc.symm), htex1]
                    simp
                  have hr : refCount U' h' = 1 := by
                    have hk := hkey h'
                    rw [if_neg (by rw [hget0]; intro hc; exact hone (Option.some_inj.mp hc)),
                      if_pos rfl] at hk
                    omega
                  rw [hv, hr]
                · have hv : tex2 h' = db.textures h' := by
                    rw [htex2]
                    dsimp only
                    rw [if_neg hhold, htex1]
                    simp [hh]
                  have hr : refCount U' h' = refCount db.users h' := by
                    have hk := hkey h'
                    have hO : ¬(profile0.get slot = some h') := by
                      rw [hget0]
                      intro hc
                      exact hhold (Option.some_inj.mp hc).symm
                    rw [if_neg hO, if_neg (fun hc => hh hc.symm)] at hk
                    omega
                  cases hcase : db.textures h' with
                  | none =>
                    right
                    exact ⟨by rw [hv, hcase], by rw [hr]; exact (hrow h').2 hcase⟩
                  | some n =>
                    left
                    rw [hv, hcase, hr]
                    exact congrArg some ((hrow h').1 n hcase)
            · rw [if_neg hm2] at htex2
              by_cases hhold : h' = old
              · subst hhold
                left
                have hv : tex2 h' = some (m - 1) := by rw [htex2]; simp
                have hr : refCount U' h' = m - 1 := by
                  have hk := hkey h'
                  rw [if_pos (by rw [hget0]),
                    if_neg (fun hc => hone (hc.symm))] at hk
                  omega
                rw [hv, hr]
              · by_cases hh : h' = hash
                · subst hh
                  left
                  have hv : tex2 h' = some 1 := by
                    rw [htex2]
                    dsimp only
                    rw [if_neg (fun hc => hone hc.symm), htex1]
                    simp
                  have hr : refCount U' h' = 1 := by
                    have hk := hkey h'
                    rw [if_neg (by rw [hget0]; intro hc; exact hone (Option.some_inj.mp hc)),
                      if_pos rfl] at hk
                    omega
                  rw [hv, hr]
                · have hv : tex2 h' = db.textures h' := by
                    rw [htex2]
                    dsimp only
                    rw [if_neg hhold, htex1]
                    simp [hh]
                  have hr : refCount U' h' = refCount db.users h' := by
                    have hk := hkey h'
                    have hO : ¬(profile0.get slot = some h') := by
                      rw [hget0]
                      intro hc
                      exact hhold (Option.some_inj.mp hc).symm
                    rw [if_neg hO, if_neg (fun hc => hh hc.symm)] at hk
                    omega
                  cases hcase : db.textures h' with
                  | none =>
                    right
                    exact ⟨by rw [hv, hcase], by rw [hr]; exact (hrow h').2 hcase⟩
                  | some n =>
                    left
                    rw [hv, hcase, hr]
                    exact congrArg some ((hrow h').1 n hcase)
      | some n0 =>
        rw [hth] at htex1
        dsimp only at htex1
        have hn0 : n0 = refCount db.users hash := (hrow hash).1 n0 hth
        by_cases hsame : profile1.get slot = some hash
        · -- re-upload of the same content: no increment, no old-row change
          rw [if_neg (by simp [hsame])] at htex1
          rw [hsame] at htex2
          dsimp only at htex2
          rw [if_neg (by simp)] at htex2
          have hget0 : profile0.get slot = some hash := by rw [← hget slot]; exact hsame
          have hr : refCount U' h' = refCount db.users h' := by
            have hk := hkey h'
            rw [hget0] at hk
            have : ((if (some hash : Option String) = some h' then 1 else 0) : Nat)
                = if hash = h' then 1 else 0 := by simp
            rw [this] at hk
            omega
          have hv : tex2 h' = db.textures h' := by rw [htex2, htex1]
          cases hcase : db.textures h' with
          | none =>
            right
            exact ⟨by rw [hv, hcase], by rw [hr]; exact (hrow h').2 hcase⟩
          | some n =>
            left
            rw [hv, hcase, hr]
            exact congrArg some ((hrow h').1 n hcase)
        · -- the slot did not hold this hash: increment the row
          rw [if_pos hsame] at htex1
          have hget0ne : profile0.get slot ≠ some hash := by
            rw [← hget slot]; exact hsame
          cases hoh : profile1.get slot with
          | none =>
            rw [hoh] at htex2
            dsimp only at htex2
            have hget0 : profile0.get slot = none := by rw [← hget slot]; exact hoh
            by_cases hh : h' = hash
            · subst hh
              left
              have hv : tex2 h' = some (n0 + 1) := by rw [htex2, htex1]; simp
              have hr : refCount U' h' = n0 + 1 := by
                have hk := hkey h'
                rw [if_neg (by rw [hget0]; simp), if_pos rfl] at hk
                omega
              rw [hv, hr]
            · have hv : tex2 h' = db.textures h' := by rw [htex2, htex1]; simp [hh]
              have hr : refCount U' h' = refCount db.users h' := by
                have hk := hkey h'
                rw [if_neg (by rw [hget0]; simp),
                  if_neg (fun hc => hh hc.symm)] at hk
                omega
              cases hcase : db.textures h' with
              | none =>
                right
                exact ⟨by rw [hv, hcase], by rw [hr]; exact (hrow h').2 hcase⟩
              | some n =>
                left
                rw [hv, hcase, hr]
                exact congrArg some ((hrow h').1 n hcase)
          | some old =>
            rw [hoh] at htex2
            have hget0 : profile0.get slot = some old := by rw [← hget slot]; exact hoh
            have hone : old ≠ hash := by
              intro hc
              exact hget0ne (hc ▸ hget0)
            dsimp only at htex2
            rw [if_pos hone] at htex2
            have htex1old : tex1 old = db.textures old := by rw [htex1]; simp [hone]
            have holdref : 1 ≤ refCount db.users old := by
              have h1 := slotCount_get_pos profile0 slot old hget0
              have h2 := refCount_lower uid profile0 old db.users hfind
              omega
            cases hto : db.textures old with
            | none => exact absurd ((hrow old).2 hto) (by omega)
            | some m =>
              have hm : m = refCount db.users old := (hrow old).1 m hto
              rw [hto] at htex1old
              rw [htex1old] at htex2
              dsimp only at htex2
              by_cases hm2 : m < 2
              · rw [if_pos hm2] at htex2
                by_cases hhold : h' = old
                · subst hhold
                  right
                  refine ⟨by rw [htex2]; simp, ?_⟩
                  have hk := hkey h'
                  rw [if_pos (by rw [hget0]),
                    if_neg (fun hc => hone (hc.symm))] at hk
                  omega
                · by_cases hh : h' = hash
                  · subst hh
                    left
                    have hv : tex2 h' = some (n0 + 1) := by
                      rw [htex2]
                      dsimp only
                      rw [if_neg (fun hc => hone hc.symm), htex1]
                      simp
                    have hr : refCount U' h' = n0 + 1 := by
                      have hk := hkey h'
                      have hO : ¬(profile0.get slot = some h') := by
                        rw [hget0]
                        intro hc
                        exact hone (Option.some_inj.mp hc)
                      rw [if_neg hO, if_pos rfl] at hk
                      omega
                    rw [hv, hr]
                  · have hv : tex2 h' = db.textures h' := by
                      rw [htex2]
                      dsimp only
                      rw [if_neg hhold, htex1]
                      simp [hh]
                    have hr : refCount U' h' = refCount db.users h' := by
                      have hk := hkey h'
                      have hO : ¬(profile0.get slot = some h') := by
                        rw [hget0]
                        intro hc
                        exact hhold (Option.some_inj.mp hc).symm
                      rw [if_neg hO, if_neg (fun hc => hh hc.symm)] at hk
                      omega
                    cases hcase : db.textures h' with
                    | none =>
                      right
                      exact ⟨by rw [hv, hcase], by rw [hr]; exact (hrow h').2 hcase⟩
                    | some n =>
                      left
                      rw [hv, hcase, hr]
                      exact congrArg some ((hrow h').1 n hcase)
              · rw [if_neg hm2] at htex2
                by_cases hhold : h' = old
                · subst hhold
                  left
                  have hv : tex2 h' = some (m - 1) := by rw [htex2]; simp
                  have hr : refCount U' h' = m - 1 := by
                    have hk := hkey h'
                    rw [if_pos (by rw [hget0]),
                      if_neg (fun hc => hone (hc.symm))] at hk
                    omega
                  rw [hv, hr]
                · by_cases hh : h' = hash
                  · subst hh
                    left
                    have hv : tex2 h' = some (n0 + 1) := by
                      rw [htex2]
                      dsimp only
                      rw [if_neg (fun hc => hone hc.symm), htex1]
                      simp
                    have hr : refCount U' h' = n0 + 1 := by
                      have hk := hkey h'
                      have hO : ¬(profile0.get slot = some h') := by
                        rw [hget0]
                        intro hc
                        exact hone (Option.some_inj.mp hc)
                      rw [if_neg hO, if_pos rfl] at hk
                      omega
                    rw [hv, hr]
                  · have hv : tex2 h' = db.textures h' := by
                      rw [htex2]
                      dsimp only
                      rw [if_neg hhold, htex1]
                      simp [hh]
                    have hr : refCount U' h' = refCount db.users h' := by
                      have hk := hkey h'
                      have hO : ¬(profile0.get slot = some h') := by
                        rw [hget0]
                        intro hc
                        exact hhold (Option.some_inj.mp hc).symm
                      rw [if_neg hO, if_neg (fun hc => hh hc.symm)] at hk
                      omega
                    cases hcase : db.textures h' with
                    | none =>
                      right
                      exact ⟨by rw [hv, hcase], by rw [hr]; exact (hrow h').2 hcase⟩
                    | some n =>
                      left
                      rw [hv, hcase, hr]
                      exact congrArg some ((hrow h').1 n hcase)

/-- The skin-branch model-type update does not change the slot read. -/
theorem get_profile1 (prof : TexProfile) (mt : Option ModelType) (slot : TexSlot) :
    TexProfile.get (if slot = TexSlot.skin then
      { prof with modelType := resolveModelValue mt } else prof) slot = prof.get slot := by
  split
  · exact get_set_modelType prof _ slot
  · rfl

/-- The old-row adjustment never touches the incoming hash's row. -/
theorem tex2_at_hash (tex1 : String → Option Nat) (oh : Option String) (hash : String) :
    (match oh with
      | some old =>
        if old ≠ hash then
          match tex1 old with
          | some m =>
            if m < 2 then fun h => if h = old then none else tex1 h
            else fun h => if h = old then some (m - 1) else tex1 h
          | none => tex1
        else tex1
      | none => tex1) hash = tex1 hash := by
  cases oh with
  | none => rfl
  | some old =>
    dsimp only
    by_cases hone : old = hash
    · rw [if_neg (by simp [hone])]
    · rw [if_pos hone]
      cases hto : tex1 old with
      | none => rfl
      | some m =>
        dsimp only
        by_cases hm2 : m < 2
        · rw [if_pos hm2]
          rw [if_neg (fun hc => hone hc.symm)]
        · rw [if_neg hm2]
          rw [if_neg (fun hc => hone hc.symm)]

/-- Core of `DeleteTexture`'s bookkeeping: clearing a slot holding `hash`
from a profile `q` whose slot map agrees with the account's database
profile, together with the row adjustment, preserves the invariant
(`q` is the token snapshot on the snapshot path and the database profile
itself on the fallback path). -/
theorem deleteCore_preserves (db : TexDB) (uid : Nat) (q prof : TexProfile)
    (slot : TexSlot) (hash : String) (hInv : TexInv db)
    (hfind : lookupUser db.users uid = some prof)
    (hsk : q.skin = prof.skin) (hcp : q.cape = prof.cape)
    (hget : q.get slot = some hash) :
    TexInv ⟨updateUser db.users uid (q.set slot none),
      adjustTextureRow db.textures hash⟩ := by
  obtain ⟨hnd, hrow⟩ := hInv
  have hsc : ∀ h, slotCount q h = slotCount prof h := by
    intro h
    unfold slotCount
    rw [hsk, hcp]
  have hpget : prof.get slot = some hash := by
    cases slot
    · show prof.skin = some hash
      rw [← hsk]
      exact hget
    · show prof.cape = some hash
      rw [← hcp]
      exact hget
  set tex' := adjustTextureRow db.textures hash with htex'
  set U' := updateUser db.users uid (q.set slot none) with hU'
  have hkey : ∀ h', refCount U' h' + (if hash = h' then 1 else 0)
      = refCount db.users h' := by
    intro h'
    have hA := refCount_updateUser uid prof (q.set slot none) h' db.users hnd hfind
    have hB := slotCount_set q slot none h'
    rw [hget] at hB
    rw [hsc h'] at hB
    have h1 : ((if (some hash : Option String) = some h' then 1 else 0) : Nat)
        = if hash = h' then 1 else 0 := by simp
    have h2 : ((if (none : Option String) = some h' then 1 else 0) : Nat) = 0 := by simp
    rw [h1, h2] at hB
    rw [hU']
    omega
  have href : 1 ≤ refCount db.users hash := by
    have h1 := slotCount_get_pos prof slot hash hpget
    have h2 := refCount_lower uid prof hash db.users hfind
    omega
  unfold TexInv
  refine ⟨?_, ?_⟩
  · show ((U'.map Prod.fst)).Nodup
    rw [hU', keys_updateUser]
    exact hnd
  · intro h'
    show (∀ n, tex' h' = some n → n = refCount U' h') ∧
      (tex' h' = none → refCount U' h' = 0)
    apply clauses_of_or
    unfold adjustTextureRow at htex'
    cases hth : db.textures hash with
    | none => exact absurd ((hrow hash).2 hth) (by omega)
    | some m =>
      have hm : m = refCount db.users hash := (hrow hash).1 m hth
      rw [hth] at htex'
      dsimp only at htex'
      by_cases hm2 : m < 2
      · rw [if_pos hm2] at htex'
        by_cases hh : h' = hash
        · subst hh
          right
          refine ⟨by rw [htex']; simp, ?_⟩
          have hk := hkey h'
          rw [if_pos rfl] at hk
          omega
        · have hv : tex' h' = db.textures h' := by rw [htex']; simp [hh]
          have hr : refCount U' h' = refCount db.users h' := by
            have hk := hkey h'
            rw [if_neg (fun hc => hh hc.symm)] at hk
            omega
          cases hcase : db.textures h' with
          | none =>
            right
            exact ⟨by rw [hv, hcase], by rw [hr]; exact (hrow h').2 hcase⟩
          | some n =>
            left
            rw [hv, hcase, hr]
            exact congrArg some ((hrow h').1 n hcase)
      · rw [if_neg hm2] at htex'
        by_cases hh : h' = hash
        · subst hh
          left
          have hv : tex' h' = some (m - 1) := by rw [htex']; simp
          have hr : refCount U' h' = m - 1 := by
            have hk := hkey h'
            rw [if_pos rfl] at hk
            omega
          rw [hv, hr]
        · have hv : tex' h' = db.textures h' := by rw [htex']; simp [hh]
          have hr : refCount U' h' = refCount db.users h' := by
            have hk := hkey h'
            rw [if_neg (fun hc => hh hc.symm)] at hk
            omega
          cases hcase : db.textures h' with
          | none =>
            right
            exact ⟨by rw [hv, hcase], by rw [hr]; exact (hrow h').2 hcase⟩
          | some n =>
            left
            rw [hv, hcase, hr]
            exact congrArg some ((hrow h').1 n hcase)

/-- `DeleteTexture` preserves the invariant whenever the calling token's
snapshot is benign: an absent-slot snapshot falls back to the database
profile, and a fresh snapshot agrees with it. -/
theorem deleteTexture_preserves (db : TexDB) (uid : Nat) (snap : TexProfile)
    (textureType : String) (hInv : TexInv db)
    (hfresh : snapFresh db uid snap textureType) :
    TexInv (deleteTexture db uid snap textureType).1 := by
  unfold deleteTexture
  unfold snapFresh at hfresh
  cases hfind : lookupUser db.users uid with
  | none => exact hInv
  | some prof =>
    rw [hfind] at hfresh
    dsimp only at hfresh
    dsimp only
    cases hs : snap.get (slotOf textureType) with
    | some hash =>
      dsimp only
      rcases hfresh with h0 | ⟨hsk, hcp⟩
      · rw [hs] at h0
        exact absurd h0 (by simp)
      · exact deleteCore_preserves db uid snap prof (slotOf textureType) hash
          ⟨hInv.1, hInv.2⟩ hfind hsk hcp hs
    | none =>
      dsimp only
      cases hp : prof.get (slotOf textureType) with
      | none => exact hInv
      | some hash =>
        dsimp only
        exact deleteCore_preserves db uid prof prof (slotOf textureType) hash
          ⟨hInv.1, hInv.2⟩ hfind rfl rfl hp

/-- A hash not yet in the textures table gets a fresh row with used = 1. -/
theorem saveTexture_fresh_row (db : TexDB) (uid : Nat) (hash ty : String)
    (mt : Option ModelType) (prof : TexProfile)
    (hfind : lookupUser db.users uid = some prof) (hth : db.textures hash = none) :
    (saveTexture db uid hash ty mt).textures hash = some 1 := by
  unfold saveTexture
  rw [hfind]
  dsimp only
  set slot := slotOf ty with hslot
  set profile1 := (if slot = TexSlot.skin then
    { prof with modelType := resolveModelValue mt } else prof) with hprof1
  set tex1 := (match db.textures hash with
    | none => fun h => if h = hash then some 1 else db.textures h
    | some n =>
      if profile1.get slot ≠ some hash then
        fun h => if h = hash then some (n + 1) else db.textures h
      else db.textures) with htex1
  rw [tex2_at_hash, htex1, hth]
  dsimp only
  simp

/-- An existing row is incremented when the slot did not hold this hash. -/
theorem saveTexture_increment (db : TexDB) (uid : Nat) (hash ty : String)
    (mt : Option ModelType) (prof : TexProfile) (n : Nat)
    (hfind : lookupUser db.users uid = some prof)
    (hne : prof.get (slotOf ty) ≠ some hash) (hth : db.textures hash = some n) :
    (saveTexture db uid hash ty mt).textures hash = some (n + 1) := by
  unfold saveTexture
  rw [hfind]
  dsimp only
  set slot := slotOf ty with hslot
  set profile1 := (if slot = TexSlot.skin then
    { prof with modelType := resolveModelValue mt } else prof) with hprof1
  set tex1 := (match db.textures hash with
    | none => fun h => if h = hash then some 1 else db.textures h
    | some n =>
      if profile1.get slot ≠ some hash then
        fun h => if h = hash then some (n + 1) else db.textures h
      else db.textures) with htex1
  rw [tex2_at_hash, htex1, hth]
  dsimp only
  rw [if_pos (by rw [hprof1, get_profile1]; exact hne)]
  simp

/-- A byte-identical re-upload leaves the textures table unchanged. -/
theorem saveTexture_reupload (db : TexDB) (uid : Nat) (hash ty : String)
    (mt : Option ModelType) (prof : TexProfile) (hInv : TexInv db)
    (hfind : lookupUser db.users uid = some prof)
    (heq : prof.get (slotOf ty) = some hash) :
    (saveTexture db uid hash ty mt).textures = db.textures := by
  unfold saveTexture
  rw [hfind]
  dsimp only
  set slot := slotOf ty with hslot
  set profile1 := (if slot = TexSlot.skin then
    { prof with modelType := resolveModelValue mt } else prof) with hprof1
  set tex1 := (match db.textures hash with
    | none => fun h => if h = hash then some 1 else db.textures h
    | some n =>
      if profile1.get slot ≠ some hash then
        fun h => if h = hash then some (n + 1) else db.textures h
      else db.textures) with htex1
  have hg : profile1.get slot = some hash := by
    rw [hprof1, get_profile1]
    exact heq
  rw [hg]
  dsimp only
  rw [if_neg (by simp)]
  rw [htex1]
  have href : 1 ≤ refCount db.users hash := by
    have h1 := slotCount_get_pos prof slot hash heq
    have h2 := refCount_lower uid prof hash db.users hfind
    omega
  cases hth : db.textures hash with
  | none => exact absurd ((hInv.2 hash).2 hth) (by omega)
  | some n =>
    dsimp only
    rw [if_neg (by rw [hg]; simp)]

/-- When the slot moves away from a different old hash, the old row is
deleted if its count was below 2 and decremented otherwise. -/
theorem saveTexture_old_row (db : TexDB) (uid : Nat) (hash ty : String)
    (mt : Option ModelType) (prof : TexProfile) (old : String) (m : Nat)
    (hfind : lookupUser db.users uid = some prof)
    (hold : prof.get (slotOf ty) = some old) (hone : old ≠ hash)
    (hth : db.textures old = some m) :
    (saveTexture db uid hash ty mt).textures old =
      if m < 2 then none else some (m - 1) := by
  unfold saveTexture
  rw [hfind]
  dsimp only
  set slot := slotOf ty with hslot
  set profile1 := (if slot = TexSlot.skin then
    { prof with modelType := resolveModelValue mt } else prof) with hprof1
  set tex1 := (match db.textures hash with
    | none => fun h => if h = hash then some 1 else db.textures h
    | some n =>
      if profile1.get slot ≠ some hash then
        fun h => if h = hash then some (n + 1) else db.textures h
      else db.textures) with htex1
  have hg : profile1.get slot = some old := by
    rw [hprof1, get_profile1]
    exact hold
  have htex1old : tex1 old = some m := by
    rw [htex1]
    cases hth2 : db.textures hash with
    | none =>
      dsimp only
      rw [if_neg hone, hth]
    | some n =>
      dsimp only
      by_cases hs : profile1.get slot ≠ some hash
      · rw [if_pos hs]
        rw [if_neg hone, hth]
      · rw [if_neg hs, hth]
  rw [hg]
  dsimp only
  rw [if_pos hone, htex1old]
  dsimp only
  by_cases hm2 : m < 2
  · simp [hm2]
  · simp [hm2]

/-- `DeleteTexture` deletes the affected row — the hash read from the
token snapshot when its slot is present, else from the database
profile — if its count was below 2, and decrements it otherwise. -/
theorem deleteTexture_row (db : TexDB) (uid : Nat) (snap : TexProfile) (ty : String)
    (prof : TexProfile) (hash : String) (n : Nat)
    (hfind : lookupUser db.users uid = some prof)
    (hhash : snap.get (slotOf ty) = some hash ∨
      (snap.get (slotOf ty) = none ∧ prof.get (slotOf ty) = some hash))
    (hth : db.textures hash = some n) :
    (deleteTexture db uid snap ty).1.textures hash =
      if n < 2 then none else some (n - 1) := by
  have hadj : adjustTextureRow db.textures hash hash =
      if n < 2 then none else some (n - 1) := by
    unfold adjustTextureRow
    rw [hth]
    dsimp only
    by_cases hn2 : n < 2
    · simp [hn2]
    · simp [hn2]
  unfold deleteTexture
  rw [hfind]
  dsimp only
  rcases hhash with hs | ⟨hs, hp⟩
  · rw [hs]
    dsimp only
    exact hadj
  · rw [hs]
    dsimp only
    rw [hp]
    dsimp only
    exact hadj

/-- The invariant is preserved by any operation sequence whose deletes
run against benign snapshots. -/
theorem texInv_foldl (ops : List TexOp) :
    ∀ db : TexDB, TexInv db → opsConsistent db ops →
      TexInv (ops.foldl applyTexOp db) := by
  induction ops with
  | nil =>
    intro db h _
    exact h
  | cons op ops ih =>
    intro db h hc
    rw [List.foldl_cons]
    refine ih (applyTexOp db op) ?_ hc.2
    cases op with
    | save uid hash ty mt => exact saveTexture_preserves db uid hash ty mt h
    | del uid snap ty => exact deleteTexture_preserves db uid snap ty h hc.1

/-- The singleton database — one account whose skin slot references hash
"h1", textures table "h1" ↦ 1 — satisfies the invariant. -/
theorem texInv_singleton_h1 :
    TexInv (⟨[(1, ⟨ModelType.STEVE, some "h1", none⟩)],
      fun h => if h = "h1" then some 1 else none⟩ : TexDB) := by
  have hrc : ∀ h, refCount [(1, (⟨ModelType.STEVE, some "h1", none⟩ : TexProfile))] h
      = if "h1" = h then 1 else 0 := by
    intro h
    simp [refCount, slotCount]
  constructor
  · decide
  · intro h
    constructor
    · intro n hn
      dsimp only at hn
      show n = refCount [(1, (⟨ModelType.STEVE, some "h1", none⟩ : TexProfile))] h
      rw [hrc]
      by_cases hh : h = "h1"
      · subst hh
        rw [if_pos rfl] at hn ⊢
        exact (Option.some_inj.mp hn).symm
      · rw [if_neg hh] at hn
        exact absurd hn (by simp)
    · intro hn
      dsimp only at hn
      show refCount [(1, (⟨ModelType.STEVE, some "h1", none⟩ : TexProfile))] h = 0
      rw [hrc]
      by_cases hh : h = "h1"
      · subst hh
        rw [if_pos rfl] at hn
        exact absurd hn (by simp)
      · rw [if_neg (fun hc => hh hc.symm)]

/-- C1 (amended).  Texture reference-count invariant: starting from any
state where every texture row's `used` equals the number of account
texture slots mapping to its hash (and account ids are unique), every
sequence of saveTexture/DeleteTexture operations preserves that
invariant PROVIDED each DeleteTexture runs against a benign token
snapshot — one that lacks the slot (so the code falls back to the
database profile) or whose slot map agrees with the database.  Each
operation is modelled as one atomic step; saveTexture needs no proviso.
Moreover: a hash not yet stored gets a fresh row with used = 1; an
existing row is incremented exactly when the uploading account's slot did
not already hold this hash, and a byte-identical re-upload (slot already
holds the hash) leaves the textures table completely unchanged; when a
slot moves away from a different old hash, and when a slot is cleared by
DeleteTexture (acting on the snapshot-preferred hash), the old row is
deleted outright if its stored count was below 2 and decremented
otherwise.  Without the proviso the claim is false: DeleteTexture reads
the slot hash from the calling token's cached snapshot and persists that
whole snapshot, so a stale snapshot (two tokens per account) breaks the
invariant — see the counterexample. -/
theorem C1_texture_refcount_invariant (db : TexDB) (hInv : TexInv db) :
    (∀ ops : List TexOp, opsConsistent db ops → TexInv (ops.foldl applyTexOp db)) ∧
    (∀ uid hash ty mt prof, lookupUser db.users uid = some prof →
      db.textures hash = none →
      (saveTexture db uid hash ty mt).textures hash = some 1) ∧
    (∀ uid hash ty mt prof n, lookupUser db.users uid = some prof →
      prof.get (slotOf ty) ≠ some hash → db.textures hash = some n →
      (saveTexture db uid hash ty mt).textures hash = some (n + 1)) ∧
    (∀ uid hash ty mt prof, lookupUser db.users uid = some prof →
      prof.get (slotOf ty) = some hash →
      (saveTexture db uid hash ty mt).textures = db.textures) ∧
    (∀ uid hash ty mt prof old m, lookupUser db.users uid = some prof →
      prof.get (slotOf ty) = some old → old ≠ hash → db.textures old = some m →
      (saveTexture db uid hash ty mt).textures old =
        if m < 2 then none else some (m - 1)) ∧
    (∀ uid snap ty prof hash n, lookupUser db.users uid = some prof →
      (snap.get (slotOf ty) = some hash ∨
        (snap.get (slotOf ty) = none ∧ prof.get (slotOf ty) = some hash)) →
      db.textures hash = some n →
      (deleteTexture db uid snap ty).1.textures hash =
        if n < 2 then none else some (n - 1)) := by
  refine ⟨?_, ?_, ?_, ?_, ?_, ?_⟩
  · intro ops hc
    exact texInv_foldl ops db hInv hc
  · intro uid hash ty mt prof hfind hth
    exact saveTexture_fresh_row db uid hash ty mt prof hfind hth
  · intro uid hash ty mt prof n hfind hne hth
    exact saveTexture_increment db uid hash ty mt prof n hfind hne hth
  · intro uid hash ty mt prof hfind heq
    exact saveTexture_reupload db uid hash ty mt prof hInv hfind heq
  · intro uid hash ty mt prof old m hfind hold hone hth
    exact saveTexture_old_row db uid hash ty mt prof old m hfind hold hone hth
  · intro uid snap ty prof hash n hfind hhash hth
    exact deleteTexture_row db uid snap ty prof hash n hfind hhash hth

/-- Witness for C1: on the singleton database, an upload of "h2" followed
by a DeleteTexture whose snapshot is fresh (slot map agreeing with the
database after the upload) keeps the invariant. -/
theorem C1_witness :
    TexInv (⟨[(1, ⟨ModelType.STEVE, some "h1", none⟩)],
      fun h => if h = "h1" then some 1 else none⟩ : TexDB) ∧
    opsConsistent
      (⟨[(1, ⟨ModelType.STEVE, some "h1", none⟩)],
        fun h => if h = "h1" then some 1 else none⟩ : TexDB)
      [TexOp.save 1 "h2" "skin" none,
       TexOp.del 1 ⟨ModelType.STEVE, some "h2", none⟩ "SKIN"] ∧
    TexInv (([TexOp.save 1 "h2" "skin" none,
        TexOp.del 1 ⟨ModelType.STEVE, some "h2", none⟩ "SKIN"]).foldl applyTexOp
      (⟨[(1, ⟨ModelType.STEVE, some "h1", none⟩)],
        fun h => if h = "h1" then some 1 else none⟩ : TexDB)) := by
  have hcons : opsConsistent
      (⟨[(1, ⟨ModelType.STEVE, some "h1", none⟩)],
        fun h => if h = "h1" then some 1 else none⟩ : TexDB)
      [TexOp.save 1 "h2" "skin" none,
       TexOp.del 1 ⟨ModelType.STEVE, some "h2", none⟩ "SKIN"] :=
    ⟨True.intro, Or.inr ⟨rfl, rfl⟩, True.intro⟩
  exact ⟨texInv_singleton_h1, hcons,
    (C1_texture_refcount_invariant _ texInv_singleton_h1).1 _ hcons⟩

/-- Counterexample for C1's original unconditional wording: the account
holds skin "h1" under two tokens; an upload via the second token replaces
it with "h2" (row "h1" dropped, "h2" created with used = 1, only that
token's snapshot refreshed); a DeleteTexture via the first token then
reads hash "h1" from its STALE snapshot, finds no "h1" row (so adjusts
nothing) and persists the stale snapshot minus the slot — leaving row
"h2" with used = 1 but zero referencing slots.  The invariant the claim
asserts for every operation sequence is violated. -/
theorem C1_counterexample :
    TexInv (⟨[(1, ⟨ModelType.STEVE, some "h1", none⟩)],
      fun h => if h = "h1" then some 1 else none⟩ : TexDB) ∧
    ¬ TexInv (([TexOp.save 1 "h2" "skin" none,
        TexOp.del 1 ⟨ModelType.STEVE, some "h1", none⟩ "SKIN"]).foldl applyTexOp
      (⟨[(1, ⟨ModelType.STEVE, some "h1", none⟩)],
        fun h => if h = "h1" then some 1 else none⟩ : TexDB)) := by
  refine ⟨texInv_singleton_h1, ?_⟩
  intro hbad
  have h2 := (hbad.2 "h2").1 1 rfl
  exact absurd h2 (by decide)

/-- C5.  Degraded mode (zero configured upstream services) is a safe
no-op except for public keys: whatever the fan-out oracle would do,
`LookupProfile`, `LookupByName`, `LookupByUUID`, `LookupBulkProfiles` and
`HasJoined` return nil result with nil error, and `VerifySession` returns
nil error, all without sending any upstream request and without touching
the service state, while `GetPublicKeys` returns a hard error for every
input. -/
theorem C5_degraded_mode_noop (cfg : UpstreamConfig)
    (profileID byName byUUID accessToken selectedProfile serverId hjUser hjServer : String)
    (usernames : List String) (unsigned : Bool) (ip : Option String)
    (runP runN runU : UpstreamService → FedOutcome (Option UpstreamProfileResponse))
    (runB : UpstreamService → FedOutcome (Option (List ProfileResponse)))
    (runV : UpstreamService → FedOutcome Unit)
    (runJ : UpstreamService → FedOutcome (Option JoinedResponse))
    (runK : UpstreamService → FedOutcome (Option PublicKeysResponse)) :
    LookupProfile (NewUpstreamService cfg []) profileID unsigned runP
      = (Except.ok none, [], NewUpstreamService cfg []) ∧
    LookupByName (NewUpstreamService cfg []) byName runN
      = (Except.ok none, [], NewUpstreamService cfg []) ∧
    LookupByUUID (NewUpstreamService cfg []) byUUID runU
      = (Except.ok none, [], NewUpstreamService cfg []) ∧
    LookupBulkProfiles (NewUpstreamService cfg []) usernames runB
      = (Except.ok none, [], NewUpstreamService cfg []) ∧
    VerifySession (NewUpstreamService cfg []) accessToken selectedProfile serverId runV
      = (Except.ok (), [], NewUpstreamService cfg []) ∧
    HasJoined (NewUpstreamService cfg []) hjUser hjServer ip runJ
      = (Except.ok none, [], NewUpstreamService cfg []) ∧
    GetPublicKeys (NewUpstreamService cfg []) runK
      = (Except.error "public keys service unavailable: no upstream services configured",
          [], NewUpstreamService cfg []) := by
  refine ⟨rfl, rfl, rfl, rfl, rfl, rfl, rfl⟩

/-- C6 (amended).  Circuit breaker: an upstream is eligible for a fan-out
iff its status is Available, or the current time has passed its RetryAt
deadline, or the process-wide request counter is a multiple of the
configured retry interval.  A call that returns a TRANSPORT error marks
the upstream Unavailable, records the error and failure time, increments
its failure count and sets RetryAt = now + RecoveryTimeout; but any call
whose HTTP response is delivered — even one whose IsSuccess flag is false
— bumps SuccessCount and TotalRequests and marks the upstream Available
with its last error cleared, and a nil response with nil error changes
nothing.  (The claim's "call that errors or fails marks Unavailable" is
wrong for delivered failing responses.) -/
theorem C6_breaker_eligibility_and_transitions (u : UpstreamService)
    (state : UpstreamServiceState) (msg : String) (now : Int) :
    (∀ s, s ∈ getAvailableUpstreams u now ↔
      s ∈ u.upstreams ∧ (s.status = .available ∨ s.retryAt < now ∨
        u.requestCounter % (u.config.retryInterval : Int) = 0)) ∧
    (∀ s, s ∈ u.upstreams → s.id = state.id →
      { s with status := .unavailable, lastErr := some msg, lastFail := now,
               failCnt := s.failCnt + 1, retryAt := now + u.config.recoveryTimeout }
        ∈ (processCallOutcome u state (.transportErr msg) now).upstreams) ∧
    (∀ (isSuccess : Bool) (statusCode : Nat) (em : Option String) s,
      s ∈ u.upstreams → s.id = state.id →
      { s with successCount := s.successCount + 1, totalRequests := s.totalRequests + 1,
               status := .available, lastErr := none }
        ∈ (processCallOutcome u state (.response isSuccess statusCode em) now).upstreams) ∧
    processCallOutcome u state .nilResponse now = u := by
  refine ⟨?_, ?_, ?_, rfl⟩
  · intro s
    unfold getAvailableUpstreams
    rw [List.mem_filter]
    apply and_congr_right
    intro _
    unfold shouldRetryUnavailableUpstream
    by_cases h1 : s.status = UpstreamStatus.available
    · simp [h1]
    · by_cases h2 : s.retryAt < now
      · simp [h1, h2]
      · simp [h1, h2]
  · intro s hs hid
    show _ ∈ (markUpstreamUnavailable u state.id msg now).upstreams
    unfold markUpstreamUnavailable
    refine List.mem_map.mpr ⟨s, hs, ?_⟩
    simp [hid]
  · intro isSuccess statusCode em s hs hid
    show _ ∈ (markUpstreamAvailable _ state.id).upstreams
    unfold markUpstreamAvailable
    dsimp only
    rw [List.map_map]
    refine List.mem_map.mpr ⟨s, hs, ?_⟩
    simp [Function.comp, hid]

/-- Witness for C6: on a one-upstream service, a transport error at time
7 yields the recorded unavailable state, and a delivered failing response
(HTTP 500, IsSuccess false) yields the available state with bumped
counters. -/
theorem C6_witness :
    (({ id := "up1", status := .unavailable, lastErr := some "boom", lastFail := 7,
        failCnt := 1, retryAt := 7 + 5000, successCount := 0,
        totalRequests := 0 } : UpstreamServiceState)
      ∈ (processCallOutcome (NewUpstreamService ⟨10, 5000⟩ ["up1"])
          (initUpstreamState "up1") (.transportErr "boom") 7).upstreams) ∧
    (({ id := "up1", status := .available, lastErr := none, lastFail := 0,
        failCnt := 0, retryAt := 0, successCount := 1,
        totalRequests := 1 } : UpstreamServiceState)
      ∈ (processCallOutcome (NewUpstreamService ⟨10, 5000⟩ ["up1"])
          (initUpstreamState "up1") (.response false 500 none) 7).upstreams) :=
  ⟨(C6_breaker_eligibility_and_transitions (NewUpstreamService ⟨10, 5000⟩ ["up1"])
      (initUpstreamState "up1") "boom" 7).2.1 (initUpstreamState "up1") (by decide) rfl,
   (C6_breaker_eligibility_and_transitions (NewUpstreamService ⟨10, 5000⟩ ["up1"])
      (initUpstreamState "up1") "boom" 7).2.2.1 false 500 none (initUpstreamState "up1")
      (by decide) rfl⟩

/-- Counterexample for C6's original wording: an upstream that had been
marked Unavailable receives a delivered FAILING response (HTTP 500,
IsSuccess false) — the claim says such a failed call marks it Unavailable
and increments the failure count, but the code marks it Available, clears
the error, leaves failCnt at 1 and even counts the failure in
SuccessCount. -/
theorem C6_counterexample :
    (processCallOutcome
        (markUpstreamUnavailable (NewUpstreamService ⟨10, 5000⟩ ["up1"]) "up1" "boom" 0)
        (initUpstreamState "up1")
        (.response false 500 (some "internal server error")) 100).upstreams =
      [{ id := "up1", status := .available, lastErr := none, lastFail := 0, failCnt := 1,
         retryAt := 5000, successCount := 1, totalRequests := 1 }] := by
  decide

end Ygg
